import Mathlib

/-!
# Gophermart: order lifecycle and balance settlement

A shallow embedding of the Go sources

* `domain/service/order_service.go` (`ValidateLuhn`, `OrderService.UploadOrder`,
  `OrderService.UpdateOrderStatus`),
* `domain/service/balance_service.go` (`BalanceService.WithdrawPoints`),
* `domain/service/accrual_service.go` (the reconciler: `checkOrderStatus`,
  `updateOrderStatus`, `getOrdersToProcess`, `processNewOrders`),
* `internal/postgres/*_repository.go` (the SQL statements of the three ledgers),
* `internal/http/handlers.go` (`Server.uploadOrder`, `Server.withdraw`),

followed by theorems about them.

Conventions of the embedding.

* The PostgreSQL database is an explicit value `DB`; every operation takes the
  database and returns the database it leaves behind.
* A Go `error` is the text of `err.Error()`; `fmt.Errorf("ctx: %w", err)` is string
  concatenation.  The HTTP layer compares these texts, so they are kept verbatim.
* Amounts (`float64` in Go, `DECIMAL(10, 2)` in SQL) are exact rationals.
* Timestamps (`uploaded_at`, `updated_at`, `processed_at`) are not modelled.
* Strings are sequences of Unicode characters; a Go string that is not valid UTF-8 has no
  counterpart here (`ValidateLuhn` rejects it: `range` yields the replacement rune).
* The `users` table belongs to the authentication collaborator and is not modelled; a
  foreign-key violation, like every other driver error, is an injected fault.
-/

namespace Gophermart

/-! ## Checksum validator (`order_service.go`, lines 97-121) -/

/-- Value of `strconv.Atoi(string(r))` for one rune `r`: the conversion succeeds exactly on
the ASCII digits `'0'..'9'` (a lone sign, any other letter, and the replacement rune that
`range` yields for invalid UTF-8 are all rejected). -/
def atoiRune (r : Char) : Option Nat :=
  if 48 ≤ r.toNat ∧ r.toNat ≤ 57 then some (r.toNat - 48) else none

/-- First loop of `ValidateLuhn`: convert rune after rune, giving up (`none`, the early
`return false`) at the first rune that `strconv.Atoi` rejects.  When the loop completes every
rune was a one-byte ASCII digit, so the byte offsets `i` of `range` are the rune positions
and `len(number)` is the number of digits. -/
def parseDigits : List Char → Option (List Nat)
  | [] => some []
  | r :: rs =>
    match atoiRune r with
    | none => none
    | some digit =>
      match parseDigits rs with
      | none => none
      | some digits => some (digit :: digits)

/-- Body of the second loop of `ValidateLuhn` at index `i`:
`d := digits[i]; if (len(digits)-i)%2 == 0 { d *= 2; if d > 9 { d -= 9 } }; checksum += d`. -/
def luhnStep (digits : List Nat) (checksum : Nat) (i : Nat) : Nat :=
  let d := digits.getD i 0
  let d := if (digits.length - i) % 2 = 0 then (if d * 2 > 9 then d * 2 - 9 else d * 2) else d
  checksum + d

/-- Second loop of `ValidateLuhn`: `for i := len(digits) - 1; i >= 0; i--`. -/
def luhnChecksum (digits : List Nat) : Nat :=
  (List.range digits.length).reverse.foldl (luhnStep digits) 0

/-- The function `ValidateLuhn(number string) bool`. -/
def ValidateLuhn (number : String) : Bool :=
  match parseDigits number.data with
  | none => false
  | some digits => luhnChecksum digits % 10 == 0

/-! ### The Luhn sum as the specification words it -/

/-- Doubling of a digit with 9 subtracted when the doubled value exceeds 9. -/
def luhnDouble (d : Nat) : Nat :=
  if 2 * d > 9 then 2 * d - 9 else 2 * d

/-- Luhn sum of a digit sequence given right to left (head = rightmost digit): every
second digit, counted from the second-from-right, is doubled; all are added. -/
def luhnSumFromRight : List Nat → Nat
  | [] => 0
  | [d] => d
  | d0 :: d1 :: rest => d0 + luhnDouble d1 + luhnSumFromRight rest

/-- Decimal value of a digit character. -/
def digitValue (c : Char) : Nat := c.toNat - 48

/-- The character is one of `'0'..'9'`. -/
def isDecimalDigit (c : Char) : Prop := '0' ≤ c ∧ c ≤ '9'

instance (c : Char) : Decidable (isDecimalDigit c) := by
  unfold isDecimalDigit; infer_instance

/-- Luhn sum of a string of digits, as worded in the specification. -/
def luhnSum (s : String) : Nat :=
  luhnSumFromRight (s.data.reverse.map digitValue)

/-! ## Entities (`domain/entity/entity.go`) and tables (`internal/postgres/db.go`) -/

/-- Row of table `orders` (`entity.Order`); primary key `id`. -/
structure Order where
  ID : String
  UserID : Int
  Status : String
  Accrual : ℚ
  deriving DecidableEq

/-- Row of table `balances` (`entity.Balance`); primary key `user_id`. -/
structure Balance where
  UserID : Int
  Current : ℚ
  Withdrawn : ℚ
  deriving DecidableEq

/-- Row of table `withdrawals` (`entity.Withdrawal`); primary key the generated `id`.
The table has no uniqueness constraint on `order_id`. -/
structure Withdrawal where
  ID : Int
  UserID : Int
  OrderID : String
  Sum : ℚ
  deriving DecidableEq

/-- The constant `entity.StatusNew`. -/
def StatusNew : String := "NEW"

/-- The constant `entity.StatusProcessing`. -/
def StatusProcessing : String := "PROCESSING"

/-- The constant `entity.StatusInvalid`. -/
def StatusInvalid : String := "INVALID"

/-- The constant `entity.StatusProcessed`. -/
def StatusProcessed : String := "PROCESSED"

/-- Contents of the database: the three ledgers and the `SERIAL` counter of
`withdrawals.id`. -/
structure DB where
  orders : List Order
  balances : List Balance
  withdrawals : List Withdrawal
  withdrawalSeq : Int
  deriving DecidableEq

deriving instance DecidableEq for Except

/-- Text of `sql.ErrNoRows`. -/
def ErrNoRows : String := "sql: no rows in result set"

/-- Text of the driver error for a violated primary key of `orders`. -/
def ErrDuplicateOrder : String :=
  "pq: duplicate key value violates unique constraint \"orders_pkey\""

/-! ## Order Ledger (`internal/postgres/order_repository.go`)

Each repository call takes `fault`, the driver error injected into the call
(`none`: storage working). -/

/-- The row `SELECT ... FROM orders WHERE id = $1` returns, if any. -/
def findOrder (db : DB) (id : String) : Option Order :=
  db.orders.find? (fun o => o.ID == id)

/-- The method `OrderRepo.CheckExists`: `SELECT user_id FROM orders WHERE id = $1`. -/
def OrderRepo.CheckExists (db : DB) (fault : Option String) (id : String) :
    Except String (Bool × Int) :=
  match fault with
  | some e => .error ("failed to check if order exists: " ++ e)
  | none =>
    match findOrder db id with
    | none => .ok (false, 0)
    | some o => .ok (true, o.UserID)

/-- The method `OrderRepo.Create`: `INSERT INTO orders (id, user_id, status)`; the primary key
rejects an id already present, `accrual` takes the column default 0. -/
def OrderRepo.Create (db : DB) (fault : Option String) (order : Order) :
    Except String Unit × DB :=
  match fault with
  | some e => (.error ("failed to create order: " ++ e), db)
  | none =>
    match findOrder db order.ID with
    | some _ => (.error ("failed to create order: " ++ ErrDuplicateOrder), db)
    | none =>
      (.ok (),
        { db with orders := db.orders ++ [⟨order.ID, order.UserID, order.Status, 0⟩] })

/-- The method `OrderRepo.GetByID`. -/
def OrderRepo.GetByID (db : DB) (fault : Option String) (id : String) : Except String Order :=
  match fault with
  | some e => .error ("failed to get order by id: " ++ e)
  | none =>
    match findOrder db id with
    | none => .error ("order not found: " ++ ErrNoRows)
    | some o => .ok o

/-- The method `OrderRepo.Update`: `UPDATE orders SET status = $1, accrual = $2 WHERE id = $3`. -/
def OrderRepo.Update (db : DB) (fault : Option String) (order : Order) :
    Except String Unit × DB :=
  match fault with
  | some e => (.error ("failed to update order: " ++ e), db)
  | none =>
    (.ok (),
      { db with orders := db.orders.map (fun o =>
          if o.ID == order.ID then { o with Status := order.Status, Accrual := order.Accrual }
          else o) })

/-! ## Balance Ledger (`internal/postgres/balance_repository.go`) -/

/-- The row `SELECT current, withdrawn FROM balances WHERE user_id = $1` returns, if any. -/
def findBalance (db : DB) (userID : Int) : Option Balance :=
  db.balances.find? (fun b => b.UserID == userID)

/-- Stored `(current, withdrawn)` of a user, if the user has a balance row. -/
def balanceOf (db : DB) (userID : Int) : Option (ℚ × ℚ) :=
  (findBalance db userID).map (fun b => (b.Current, b.Withdrawn))

/-- The four driver calls of `UpdateBalance` into which an error can be injected. -/
inductive TxStage where
  | Begin
  | Lock
  | Exec
  | Commit
  deriving DecidableEq

/-- The error injected at `stage`, if any. -/
def faultAt (fault : Option (TxStage × String)) (stage : TxStage) : Option String :=
  match fault with
  | some (s, e) => if s = stage then some e else none
  | none => none

/-- The `UPDATE balances SET ... WHERE user_id = $3` statement of `UpdateBalance`. -/
def updateBalanceRows (rows : List Balance) (userID : Int) (amount : ℚ) (isWithdrawal : Bool) :
    List Balance :=
  rows.map (fun b =>
    if b.UserID == userID then
      (if isWithdrawal then
        { b with Current := b.Current - amount, Withdrawn := b.Withdrawn + amount }
      else
        { b with Current := b.Current + amount })
    else b)

/-- The method `BalanceRepo.UpdateBalance(ctx, userID, amount, isWithdrawal)`.  The transaction
works on `tx`; every return before `Commit` runs the deferred `Rollback`, which leaves `db`. -/
def BalanceRepo.UpdateBalance (db : DB) (fault : Option (TxStage × String)) (userID : Int)
    (amount : ℚ) (isWithdrawal : Bool) : Except String Unit × DB :=
  match faultAt fault .Begin with
  | some e => (.error ("failed to begin transaction: " ++ e), db)
  | none =>
    match faultAt fault .Lock with
    | some e => (.error ("failed to lock balance row: " ++ e), db)
    | none =>
      match findBalance db userID with
      | none => (.error ("failed to lock balance row: " ++ ErrNoRows), db)
      | some row =>
        if isWithdrawal && decide (row.Current < amount) then
          (.error "insufficient funds", db)
        else
          match faultAt fault .Exec with
          | some e => (.error ("failed to update balance: " ++ e), db)
          | none =>
            let tx : DB :=
              { db with balances := updateBalanceRows db.balances userID amount isWithdrawal }
            match faultAt fault .Commit with
            | some e => (.error e, db)
            | none => (.ok (), tx)

/-! ## Withdrawal Ledger (`internal/postgres/withdrawal_repository.go`) -/

/-- The method `WithdrawalRepo.Create`: `INSERT INTO withdrawals (user_id, order_id, sum)`, the
id drawn from the `SERIAL` counter. -/
def WithdrawalRepo.Create (db : DB) (fault : Option String) (withdrawal : Withdrawal) :
    Except String Unit × DB :=
  match fault with
  | some e => (.error ("failed to create withdrawal: " ++ e), db)
  | none =>
    (.ok (),
      { db with
        withdrawals := db.withdrawals ++
          [⟨db.withdrawalSeq, withdrawal.UserID, withdrawal.OrderID, withdrawal.Sum⟩]
        withdrawalSeq := db.withdrawalSeq + 1 })

/-! ## Services (`domain/service`) -/

/-- Driver errors injected into the repository calls of `UploadOrder`. -/
structure UploadFaults where
  checkExists : Option String
  create : Option String

/-- The method `OrderService.UploadOrder(ctx, orderID, userID)`. -/
def OrderService.UploadOrder (db : DB) (f : UploadFaults) (orderID : String) (userID : Int) :
    Except String Order × DB :=
  if !ValidateLuhn orderID then
    (.error "invalid order number", db)
  else
    match OrderRepo.CheckExists db f.checkExists orderID with
    | .error e => (.error ("failed to check order existence: " ++ e), db)
    | .ok (found, existingUserID) =>
      if found && existingUserID != userID then
        (.error "order already uploaded by another user", db)
      else if found && existingUserID == userID then
        (.error "order already uploaded by you", db)
      else
        let order : Order := ⟨orderID, userID, StatusNew, 0⟩
        match OrderRepo.Create db f.create order with
        | (.error e, db1) => (.error ("failed to create order: " ++ e), db1)
        | (.ok _, db1) => (.ok order, db1)

/-- Driver errors injected into the repository calls of `WithdrawPoints`. -/
structure WithdrawFaults where
  checkExists : Option String
  updateBalance : Option (TxStage × String)
  create : Option String

/-- The method `BalanceService.WithdrawPoints(ctx, userID, orderID, amount)`. -/
def BalanceService.WithdrawPoints (db : DB) (f : WithdrawFaults) (userID : Int)
    (orderID : String) (amount : ℚ) : Except String Unit × DB :=
  if !ValidateLuhn orderID then
    (.error "invalid order number", db)
  else
    match OrderRepo.CheckExists db f.checkExists orderID with
    | .error e => (.error ("failed to check order existence: " ++ e), db)
    | .ok (found, _) =>
      if found then
        (.error "order already exists", db)
      else
        match BalanceRepo.UpdateBalance db f.updateBalance userID amount true with
        | (.error e, db1) => (.error ("failed to withdraw points: " ++ e), db1)
        | (.ok _, db1) =>
          match WithdrawalRepo.Create db1 f.create ⟨0, userID, orderID, amount⟩ with
          | (.error e, db2) => (.error ("failed to create withdrawal record: " ++ e), db2)
          | (.ok _, db2) => (.ok (), db2)

/-- Storage working: no driver error in `UploadOrder`. -/
def uploadOK : UploadFaults := ⟨none, none⟩

/-- Storage working: no driver error in `WithdrawPoints`. -/
def withdrawOK : WithdrawFaults := ⟨none, none, none⟩

/-! ## HTTP handlers (`internal/http/handlers.go`) -/

/-- Go's `unicode.IsSpace`. -/
def isSpace (r : Char) : Bool :=
  let n := r.toNat
  (9 ≤ n && n ≤ 13) || n == 32 || n == 0x85 || n == 0xA0 || n == 0x1680 ||
    (0x2000 ≤ n && n ≤ 0x200A) || n == 0x2028 || n == 0x2029 || n == 0x202F ||
    n == 0x205F || n == 0x3000

/-- Go's `strings.TrimSpace`: leading and trailing white space removed. -/
def TrimSpace (s : String) : String :=
  ⟨((s.data.dropWhile isSpace).reverse.dropWhile isSpace).reverse⟩

/-- The handler `Server.uploadOrder`, as (status code, database).  `body` is the result of
`io.ReadAll(r.Body)`, `none` when reading failed. -/
def Server.uploadOrder (db : DB) (f : UploadFaults) (body : Option String) (userID : Int) :
    Nat × DB :=
  match body with
  | none => (400, db)
  | some body =>
    let orderID := TrimSpace body
    if orderID == "" then
      (400, db)
    else
      match OrderService.UploadOrder db f orderID userID with
      | (.error e, db1) =>
        if e == "invalid order number" then (422, db1)
        else if e == "order already uploaded by another user" then (409, db1)
        else if e == "order already uploaded by you" then (200, db1)
        else (500, db1)
      | (.ok _, db1) => (202, db1)

/-- The type `WithdrawalRequest`: the decoded JSON body `{order, sum}`. -/
structure WithdrawalRequest where
  OrderID : String
  Sum : ℚ

/-- The handler `Server.withdraw`, as (status code, database).  `req` is the result of the JSON
decoder, `none` when decoding failed. -/
def Server.withdraw (db : DB) (f : WithdrawFaults) (method : String)
    (req : Option WithdrawalRequest) (userID : Int) : Nat × DB :=
  if method != "POST" then
    (405, db)
  else
    match req with
    | none => (400, db)
    | some req =>
      if req.OrderID == "" || decide (req.Sum ≤ 0) then
        (400, db)
      else
        match BalanceService.WithdrawPoints db f userID req.OrderID req.Sum with
        | (.error e, db1) =>
          if e == "invalid order number" then (422, db1)
          else if e == "order already exists" then (409, db1)
          else if e == "insufficient funds" then (402, db1)
          else (500, db1)
        | (.ok _, db1) => (200, db1)

/-! ## Sequences of balance operations -/

/-- One call of `UpdateBalance` on a fixed user: the flag `isWithdrawal` (DEBIT when true,
CREDIT when false) and the amount. -/
structure BalanceOp where
  isWithdrawal : Bool
  amount : ℚ

/-- Database after one `UpdateBalance` call with storage working (a failed call rolls back). -/
def applyOp (userID : Int) (db : DB) (op : BalanceOp) : DB :=
  (BalanceRepo.UpdateBalance db none userID op.amount op.isWithdrawal).2

/-- Database after the calls `ops`, one after another. -/
def applyOps (userID : Int) (db : DB) (ops : List BalanceOp) : DB :=
  ops.foldl (applyOp userID) db

/-- Sum of the amounts of all CREDIT operations. -/
def creditSum (ops : List BalanceOp) : ℚ :=
  ((ops.filter (fun op => !op.isWithdrawal)).map (fun op => op.amount)).sum

/-- Sum of the amounts of the DEBIT operations whose `UpdateBalance` call returned no error,
each call made on the database its predecessors left. -/
def succeededDebitSum (userID : Int) : DB → List BalanceOp → ℚ
  | _, [] => 0
  | db, op :: ops =>
    (if op.isWithdrawal &&
        (BalanceRepo.UpdateBalance db none userID op.amount op.isWithdrawal).1.isOk
      then op.amount else 0) +
      succeededDebitSum userID (applyOp userID db op) ops

/-! ## Auxiliary functions of the proofs -/

/-- Contribution of the digit at index `i` of `digits` to the checksum. -/
def luhnTerm (digits : List Nat) (i : Nat) : Nat :=
  luhnStep digits 0 i

/-- Effect of the `UPDATE` statement on the `(current, withdrawn)` pair of its target. -/
def movedBalance (amount : ℚ) (isWithdrawal : Bool) (cw : ℚ × ℚ) : ℚ × ℚ :=
  if isWithdrawal then (cw.1 - amount, cw.2 + amount) else (cw.1 + amount, cw.2)

/-- Amount that one operation moves into `withdrawn`: the amount of a DEBIT that succeeded. -/
def debited (u : Int) (db : DB) (op : BalanceOp) : ℚ :=
  if op.isWithdrawal &&
      (BalanceRepo.UpdateBalance db none u op.amount op.isWithdrawal).1.isOk
    then op.amount else 0

/-- Amount that one operation adds as a credit. -/
def credited (op : BalanceOp) : ℚ :=
  if op.isWithdrawal then 0 else op.amount

/-! ## Ledger invariant and sample databases -/

/-- Every row of the Order Ledger carries a non-empty id that passes `ValidateLuhn`: the rows
are written by `Server.uploadOrder` only, behind its empty-body and checksum gates. -/
def LedgerAdmitted (db : DB) : Prop :=
  ∀ o ∈ db.orders, o.ID ≠ "" ∧ ValidateLuhn o.ID = true

/-- Sample database: no orders, user 1 with `current = 100`, `withdrawn = 0`. -/
def dbOneUser : DB := ⟨[], [⟨1, 100, 0⟩], [], 1⟩

/-- Sample database: no orders, users 1 and 2 with `current = 100` each. -/
def dbTwoUsers : DB := ⟨[], [⟨1, 100, 0⟩, ⟨2, 100, 0⟩], [], 1⟩

/-- Sample database: order `"79927398713"` of user 2, user 1 with `current = 100`. -/
def dbWithOrder : DB := ⟨[⟨"79927398713", 2, StatusNew, 0⟩], [⟨1, 100, 0⟩], [], 1⟩

/-! ## Lazy creation of balances (`balance_repository.go`, lines 22-64) -/

/-- Driver errors injected into the two statements of `GetOrCreate`. -/
structure GetOrCreateFaults where
  get : Option String
  create : Option String

/-- The method `BalanceRepo.GetOrCreate`: the stored row of the user, or a zeroed row inserted
by `INSERT INTO balances (user_id, current, withdrawn) VALUES ($1, 0, 0)`. -/
def BalanceRepo.GetOrCreate (db : DB) (f : GetOrCreateFaults) (userID : Int) :
    Except String Balance × DB :=
  match f.get with
  | some e => (.error ("failed to get balance: " ++ e), db)
  | none =>
    match findBalance db userID with
    | some row => (.ok row, db)
    | none =>
      match f.create with
      | some e => (.error ("failed to create balance: " ++ e), db)
      | none =>
        (.ok ⟨userID, 0, 0⟩, { db with balances := db.balances ++ [⟨userID, 0, 0⟩] })

/-! ## Status update of an order (`order_service.go`, lines 68-95) -/

/-- Driver errors injected into the repository calls of `OrderService.UpdateOrderStatus`. -/
structure StatusFaults where
  getByID : Option String
  updateBalance : Option (TxStage × String)
  update : Option String

/-- Storage working: no driver error in `UpdateOrderStatus`. -/
def statusOK : StatusFaults := ⟨none, none, none⟩

/-- The method `OrderService.UpdateOrderStatus(ctx, orderID, status, accrual)`: nothing happens
unless the status changes; a change to `PROCESSED` with a positive accrual first credits the
owner (its own committed transaction) and then writes the order. -/
def OrderService.UpdateOrderStatus (db : DB) (f : StatusFaults) (orderID status : String)
    (accrual : ℚ) : Except String Unit × DB :=
  match OrderRepo.GetByID db f.getByID orderID with
  | .error e => (.error ("failed to get order: " ++ e), db)
  | .ok order =>
    if order.Status != status then
      let order1 : Order := { order with Status := status, Accrual := accrual }
      let credit : Except String Unit × DB :=
        if status == StatusProcessed && decide (accrual > 0) then
          BalanceRepo.UpdateBalance db f.updateBalance order1.UserID accrual false
        else (.ok (), db)
      match credit with
      | (.error e, db1) => (.error ("failed to update balance: " ++ e), db1)
      | (.ok _, db1) =>
        match OrderRepo.Update db1 f.update order1 with
        | (.error e, db2) => (.error ("failed to update order: " ++ e), db2)
        | (.ok _, db2) => (.ok (), db2)
    else
      (.ok (), db)

/-! ## Accrual reconciler (`domain/service/accrual_service.go`)

The oracle is a function from the order id to the outcome of `GET {base}/api/orders/{id}` in
the current tick.  Logging (`fmt.Printf`) and the `time.Sleep` of the 429 branch have no effect
on the database and are left out. -/

/-- The type `AccrualResponse`: the decoded JSON body of the oracle. -/
structure AccrualResponse where
  Order : String
  Status : String
  Accrual : ℚ

/-- What `checkOrderStatus` reads of an HTTP response: the status code, the outcome of decoding
the body as JSON, the `Retry-After` header. -/
structure HTTPResponse where
  StatusCode : Nat
  Body : Except String AccrualResponse
  RetryAfter : String

/-- Outcome of the request to the oracle: `http.NewRequestWithContext` failed, `client.Do`
failed (transport error), or a response came back. -/
inductive OracleReply where
  | requestError (e : String)
  | transportError (e : String)
  | response (resp : HTTPResponse)

/-- The method `AccrualService.checkOrderStatus(ctx, orderID)`. -/
def AccrualService.checkOrderStatus (oracle : String → OracleReply) (orderID : String) :
    Except String (String × ℚ) :=
  match oracle orderID with
  | .requestError e => .error ("failed to create request: " ++ e)
  | .transportError e => .error ("failed to send request: " ++ e)
  | .response resp =>
    if resp.StatusCode = 200 then
      match resp.Body with
      | .error e => .error ("failed to decode response: " ++ e)
      | .ok accrualResp => .ok (accrualResp.Status, accrualResp.Accrual)
    else if resp.StatusCode = 429 then
      .error "rate limited by accrual system"
    else if resp.StatusCode = 204 then
      .ok (StatusInvalid, 0)
    else
      .error ("unexpected status code: " ++ toString resp.StatusCode)

/-- Driver errors injected into the repository calls of `AccrualService.updateOrderStatus`. -/
structure OrderFaults where
  getByID : Option String
  update : Option String

/-- The method `AccrualService.updateOrderStatus(ctx, orderID, status, accrual)`: reads the
order and overwrites status and accrual; the service holds no balance repository. -/
def AccrualService.updateOrderStatus (db : DB) (f : OrderFaults) (orderID status : String)
    (accrual : ℚ) : Except String Unit × DB :=
  match OrderRepo.GetByID db f.getByID orderID with
  | .error e => (.error ("failed to get order: " ++ e), db)
  | .ok order =>
    match OrderRepo.Update db f.update { order with Status := status, Accrual := accrual } with
    | (.error e, db1) => (.error ("failed to update order: " ++ e), db1)
    | (.ok _, db1) => (.ok (), db1)

/-- The method `AccrualService.getOrdersToProcess`: as shipped it queries nothing and returns an
empty slice. -/
def AccrualService.getOrdersToProcess (_db : DB) : Except String (List Order) :=
  .ok []

/-- Body of the loop of `processNewOrders` for one fetched order. -/
def AccrualService.processOrder (oracle : String → OracleReply) (faults : String → OrderFaults)
    (db : DB) (order : Order) : DB :=
  match AccrualService.checkOrderStatus oracle order.ID with
  | .error _ => db
  | .ok (status, accrual) =>
    if status != order.Status then
      (AccrualService.updateOrderStatus db (faults order.ID) order.ID status accrual).2
    else db

/-- The loop `for _, order := range orders` of `processNewOrders`. -/
def AccrualService.processOrders (oracle : String → OracleReply)
    (faults : String → OrderFaults) (db : DB) (orders : List Order) : DB :=
  orders.foldl (AccrualService.processOrder oracle faults) db

/-- The method `AccrualService.processNewOrders(ctx)`: one tick of the reconciler. -/
def AccrualService.processNewOrders (db : DB) (oracle : String → OracleReply)
    (faults : String → OrderFaults) : DB :=
  match AccrualService.getOrdersToProcess db with
  | .error _ => db
  | .ok orders => AccrualService.processOrders oracle faults db orders

/-- Storage working for every order of the tick. -/
def ordersOK : String → OrderFaults := fun _ => ⟨none, none⟩

/-- An oracle that answers `200 {status: PROCESSED, accrual: 500}` for every order. -/
def oracleProcessed500 : String → OracleReply :=
  fun id => .response ⟨200, .ok ⟨id, StatusProcessed, 500⟩, ""⟩

/-- Sample database: order `"79927398713"` as `UploadOrder` stored it for user 1 (status `NEW`,
accrual 0), user 1 with balance `(0, 0)`. -/
def dbNewOrder : DB := ⟨[⟨"79927398713", 1, StatusNew, 0⟩], [⟨1, 0, 0⟩], [], 1⟩

/-- Sample database: order `"79927398713"` of user 1 in status `PROCESSING`, user 1 with
balance `(0, 0)`. -/
def dbProcessing : DB := ⟨[⟨"79927398713", 1, StatusProcessing, 0⟩], [⟨1, 0, 0⟩], [], 1⟩

/-- Sample database: order `"79927398713"` of user 1 already `PROCESSED` with accrual 500 and
credited, user 1 with balance `(500, 0)`. -/
def dbProcessed : DB := ⟨[⟨"79927398713", 1, StatusProcessed, 500⟩], [⟨1, 500, 0⟩], [], 1⟩

/-- Sample database: user 1 is registered but has no balance row yet. -/
def dbNoBalance : DB := ⟨[], [], [], 1⟩

/-! ## Retries of a status update -/

/-- Database after the attempts `attempts` of `UpdateOrderStatus` with the same arguments, one
after another, each under its own driver errors. -/
def retryUpdateOrderStatus (db : DB) (attempts : List StatusFaults) (orderID status : String)
    (accrual : ℚ) : DB :=
  attempts.foldl (fun d f => (OrderService.UpdateOrderStatus d f orderID status accrual).2) db

/-- Every attempt of `attempts`, made on the database its predecessors left, returns an
error. -/
def attemptsAllFail (orderID status : String) (accrual : ℚ) : DB → List StatusFaults → Bool
  | _, [] => true
  | db, f :: fs =>
    !(OrderService.UpdateOrderStatus db f orderID status accrual).1.isOk &&
      attemptsAllFail orderID status accrual
        (OrderService.UpdateOrderStatus db f orderID status accrual).2 fs

/-- Number of attempts without a driver error in the balance credit: their credit is
committed. -/
def committedCredits (attempts : List StatusFaults) : Nat :=
  (attempts.filter (fun f => f.updateBalance.isNone)).length

/-! ## Row of one order after its turn in the reconciler loop -/

/-- Row of `order` after the loop body of `processNewOrders` ran for it, computed from the row
stored before (`none`: no row): the answer of the oracle for this order, its fetched status
and the driver errors of its own update decide. -/
def reconciledRow (oracle : String → OracleReply) (faults : String → OrderFaults)
    (order : Order) (row : Option Order) : Option Order :=
  match AccrualService.checkOrderStatus oracle order.ID with
  | .error _ => row
  | .ok (status, accrual) =>
    if status != order.Status && (faults order.ID).getByID.isNone &&
        (faults order.ID).update.isNone then
      row.map (fun r => { r with Status := status, Accrual := accrual })
    else row

/-! ## Weight of a digit in the checksum -/

/-- Contribution to the checksum of a digit `d` that has `n` digits to its right: doubled
(less 9 above 9) when `n` is odd. -/
def luhnWeight (n d : Nat) : Nat :=
  if n % 2 = 1 then luhnDouble d else d

/-! ## Checksum validator: lemmas -/

theorem isDecimalDigit_iff (c : Char) : isDecimalDigit c ↔ 48 ≤ c.toNat ∧ c.toNat ≤ 57 := by
  unfold isDecimalDigit
  have h1 : ('0' ≤ c) ↔ 48 ≤ c.toNat := by
    show ('0' : Char).val ≤ c.val ↔ _
    rw [UInt32.le_def]
    rfl
  have h2 : (c ≤ '9') ↔ c.toNat ≤ 57 := by
    show c.val ≤ ('9' : Char).val ↔ _
    rw [UInt32.le_def]
    rfl
  rw [h1, h2]

theorem atoiRune_of_digit {c : Char} (h : isDecimalDigit c) : atoiRune c = some (digitValue c) := by
  rw [isDecimalDigit_iff] at h
  simp [atoiRune, digitValue, h]

theorem atoiRune_of_not_digit {c : Char} (h : ¬ isDecimalDigit c) : atoiRune c = none := by
  rw [isDecimalDigit_iff] at h
  simp [atoiRune, h]

theorem parseDigits_of_digits (cs : List Char) (h : ∀ c ∈ cs, isDecimalDigit c) :
    parseDigits cs = some (cs.map digitValue) := by
  induction cs with
  | nil => rfl
  | cons c cs ih =>
    have hc : isDecimalDigit c := h c (List.mem_cons_self _ _)
    have hcs : ∀ d ∈ cs, isDecimalDigit d := fun d hd => h d (List.mem_cons_of_mem _ hd)
    simp [parseDigits, atoiRune_of_digit hc, ih hcs]

theorem parseDigits_of_not_digit (cs : List Char) (h : ∃ c ∈ cs, ¬ isDecimalDigit c) :
    parseDigits cs = none := by
  induction cs with
  | nil => simp at h
  | cons c cs ih =>
    by_cases hc : isDecimalDigit c
    · have hcs : ∃ d ∈ cs, ¬ isDecimalDigit d := by
        obtain ⟨d, hd, hnd⟩ := h
        rcases List.mem_cons.mp hd with rfl | hd
        · exact absurd hc hnd
        · exact ⟨d, hd, hnd⟩
      simp [parseDigits, atoiRune_of_digit hc, ih hcs]
    · simp [parseDigits, atoiRune_of_not_digit hc]

theorem luhnStep_eq (digits : List Nat) (acc i : Nat) :
    luhnStep digits acc i = acc + luhnTerm digits i := by
  simp [luhnStep, luhnTerm]

theorem foldl_luhnStep (digits : List Nat) (l : List Nat) (acc : Nat) :
    l.foldl (luhnStep digits) acc = acc + (l.map (luhnTerm digits)).sum := by
  induction l generalizing acc with
  | nil => simp
  | cons i l ih => rw [List.foldl_cons, ih, luhnStep_eq]; simp [Nat.add_assoc]

theorem luhnChecksum_eq_sum (digits : List Nat) :
    luhnChecksum digits = ((List.range digits.length).map (luhnTerm digits)).sum := by
  unfold luhnChecksum
  rw [foldl_luhnStep, List.map_reverse, List.sum_reverse]
  simp

theorem luhnTerm_cons_succ (d : Nat) (ds : List Nat) (i : Nat) :
    luhnTerm (d :: ds) (i + 1) = luhnTerm ds i := by
  simp [luhnTerm, luhnStep]

theorem luhnTerm_cons_zero (d : Nat) (ds : List Nat) :
    luhnTerm (d :: ds) 0 = if ds.length % 2 = 1 then luhnDouble d else d := by
  simp only [luhnTerm, luhnStep, luhnDouble, List.getD_cons_zero, List.length_cons, Nat.sub_zero,
    Nat.zero_add]
  have : (ds.length + 1) % 2 = 0 ↔ ds.length % 2 = 1 := by omega
  simp only [this, Nat.mul_comm d 2]

theorem luhnChecksum_cons (d : Nat) (ds : List Nat) :
    luhnChecksum (d :: ds) =
      luhnChecksum ds + (if ds.length % 2 = 1 then luhnDouble d else d) := by
  rw [luhnChecksum_eq_sum, luhnChecksum_eq_sum, List.length_cons, List.range_succ_eq_map,
    List.map_cons, List.sum_cons, luhnTerm_cons_zero, List.map_map]
  have : (luhnTerm (d :: ds) ∘ Nat.succ) = luhnTerm ds := by
    funext i
    exact luhnTerm_cons_succ d ds i
  rw [this, Nat.add_comm]

theorem luhnSumFromRight_append_singleton (l : List Nat) (d : Nat) :
    luhnSumFromRight (l ++ [d]) =
      luhnSumFromRight l + (if l.length % 2 = 1 then luhnDouble d else d) := by
  induction l using luhnSumFromRight.induct with
  | case1 => simp [luhnSumFromRight]
  | case2 a => simp [luhnSumFromRight]
  | case3 a b l ih =>
    have hlen : (l.length + 1 + 1) % 2 = l.length % 2 := by omega
    show a + luhnDouble b + luhnSumFromRight (l ++ [d]) =
      a + luhnDouble b + luhnSumFromRight l +
        (if (l.length + 1 + 1) % 2 = 1 then luhnDouble d else d)
    rw [ih, hlen]
    omega

/-- The checksum computed by the second loop is the Luhn sum of the reversed digits. -/
theorem luhnChecksum_eq_luhnSumFromRight (digits : List Nat) :
    luhnChecksum digits = luhnSumFromRight digits.reverse := by
  induction digits with
  | nil => rfl
  | cons d ds ih =>
    rw [luhnChecksum_cons, List.reverse_cons, luhnSumFromRight_append_singleton, ih,
      List.length_reverse]

theorem ValidateLuhn_of_digits (s : String) (h : ∀ c ∈ s.data, isDecimalDigit c) :
    ValidateLuhn s = decide (luhnSum s % 10 = 0) := by
  unfold ValidateLuhn luhnSum
  rw [parseDigits_of_digits _ h]
  simp only [luhnChecksum_eq_luhnSumFromRight, List.map_reverse]
  cases hd : decide (luhnSumFromRight (List.map digitValue s.data).reverse % 10 = 0) <;>
    simp_all

theorem ValidateLuhn_of_not_digit (s : String) (h : ∃ c ∈ s.data, ¬ isDecimalDigit c) :
    ValidateLuhn s = false := by
  unfold ValidateLuhn
  rw [parseDigits_of_not_digit _ h]

theorem ValidateLuhn_eq_true_iff (s : String) :
    ValidateLuhn s = true ↔ (∀ c ∈ s.data, isDecimalDigit c) ∧ luhnSum s % 10 = 0 := by
  by_cases h : ∀ c ∈ s.data, isDecimalDigit c
  · rw [ValidateLuhn_of_digits s h, decide_eq_true_iff]
    exact ⟨fun hsum => ⟨h, hsum⟩, fun hboth => hboth.2⟩
  · have h2 : ∃ c ∈ s.data, ¬ isDecimalDigit c := by
      push_neg at h
      exact h
    rw [ValidateLuhn_of_not_digit s h2]
    simp [h]

/-! ## Checksum validator: the claims -/

/-- C3. For every non-empty string `s`, `ValidateLuhn s` is true if and only if every character
of `s` is one of `'0'..'9'` and the Luhn sum of `s` (digits added right to left, every second
one from the second-from-right doubled, 9 subtracted from a doubled value above 9) is divisible
by 10.  In particular `"79927398713"` is accepted, `"79927398710"` is rejected, and a string
with a character that is not a digit is rejected. -/
theorem ValidateLuhn_iff_luhnSum (s : String) (hs : s ≠ "") :
    (ValidateLuhn s = true ↔ (∀ c ∈ s.data, isDecimalDigit c) ∧ luhnSum s % 10 = 0) ∧
    ValidateLuhn "79927398713" = true ∧
    ValidateLuhn "79927398710" = false ∧
    ((∃ c ∈ s.data, ¬ isDecimalDigit c) → ValidateLuhn s = false) := by
  have _ := hs
  exact ⟨ValidateLuhn_eq_true_iff s, by decide, by decide, ValidateLuhn_of_not_digit s⟩

/-- Witness of C3 at the string `"79927398713"`. -/
theorem ValidateLuhn_iff_luhnSum_witness :
    "79927398713" ≠ "" ∧
    (ValidateLuhn "79927398713" = true ↔
      (∀ c ∈ "79927398713".data, isDecimalDigit c) ∧ luhnSum "79927398713" % 10 = 0) :=
  ⟨by decide, (ValidateLuhn_iff_luhnSum "79927398713" (by decide)).1⟩

/-! ## Balance Ledger: lemmas -/

theorem find_updateBalanceRows (rows : List Balance) (u v : Int) (a : ℚ) (isW : Bool) :
    ((updateBalanceRows rows u a isW).find? (fun b => b.UserID == v)).map
        (fun b => (b.Current, b.Withdrawn)) =
      ((rows.find? (fun b => b.UserID == v)).map (fun b => (b.Current, b.Withdrawn))).map
        (fun cw => if v = u then movedBalance a isW cw else cw) := by
  unfold updateBalanceRows
  rw [List.find?_map]
  have hp : ((fun b : Balance => b.UserID == v) ∘ fun b : Balance =>
      if b.UserID == u then
        (if isW then
          { b with Current := b.Current - a, Withdrawn := b.Withdrawn + a }
        else
          { b with Current := b.Current + a })
      else b) = fun b : Balance => b.UserID == v := by
    funext b
    simp only [Function.comp]
    split
    · split <;> rfl
    · rfl
  rw [hp]
  cases hf : rows.find? (fun b => b.UserID == v) with
  | none => rfl
  | some b =>
    have hbv : b.UserID = v := by simpa using List.find?_some hf
    subst hbv
    by_cases hbu : b.UserID = u
    · cases isW <;> simp [hbu, movedBalance]
    · simp [hbu]

theorem balanceOf_updateBalanceRows (db : DB) (u v : Int) (a : ℚ) (isW : Bool) :
    balanceOf { db with balances := updateBalanceRows db.balances u a isW } v =
      (balanceOf db v).map (fun cw => if v = u then movedBalance a isW cw else cw) := by
  unfold balanceOf findBalance
  exact find_updateBalanceRows db.balances u v a isW

theorem findBalance_of_balanceOf {db : DB} {u : Int} {c w : ℚ}
    (h : balanceOf db u = some (c, w)) :
    ∃ row, findBalance db u = some row ∧ row.Current = c ∧ row.Withdrawn = w := by
  unfold balanceOf at h
  cases hf : findBalance db u with
  | none => simp [hf] at h
  | some row =>
    simp [hf] at h
    exact ⟨row, rfl, h.1, h.2⟩

/-- With storage working and a balance row `(c, w)`, `UpdateBalance` either refuses a DEBIT
above `c` or commits the `UPDATE`. -/
theorem UpdateBalance_of_balanceOf (db : DB) (u : Int) (a : ℚ) (isW : Bool) {c w : ℚ}
    (h : balanceOf db u = some (c, w)) :
    BalanceRepo.UpdateBalance db none u a isW =
      if isW && decide (c < a) then (.error "insufficient funds", db)
      else (.ok (), { db with balances := updateBalanceRows db.balances u a isW }) := by
  obtain ⟨row, hrow, hc, _⟩ := findBalance_of_balanceOf h
  simp [BalanceRepo.UpdateBalance, faultAt, hrow, hc]

/-- Whatever the outcome, `UpdateBalance` leaves the database or commits the `UPDATE`. -/
theorem UpdateBalance_db (db : DB) (fault : Option (TxStage × String)) (u : Int) (a : ℚ)
    (isW : Bool) :
    (BalanceRepo.UpdateBalance db fault u a isW).2 = db ∨
    (BalanceRepo.UpdateBalance db fault u a isW).2 =
      { db with balances := updateBalanceRows db.balances u a isW } := by
  unfold BalanceRepo.UpdateBalance
  repeat' split
  all_goals simp

theorem UpdateBalance_other (db : DB) (fault : Option (TxStage × String)) (u v : Int) (a : ℚ)
    (isW : Bool) (hvu : v ≠ u) :
    balanceOf (BalanceRepo.UpdateBalance db fault u a isW).2 v = balanceOf db v := by
  rcases UpdateBalance_db db fault u a isW with h | h
  · rw [h]
  · rw [h, balanceOf_updateBalanceRows]
    cases balanceOf db v <;> simp [hvu]

theorem UpdateBalance_debit_refused (db : DB) (u : Int) (a : ℚ) {c w : ℚ}
    (h : balanceOf db u = some (c, w)) (hlt : c < a) :
    BalanceRepo.UpdateBalance db none u a true = (.error "insufficient funds", db) := by
  rw [UpdateBalance_of_balanceOf db u a true h]
  simp [hlt]

theorem UpdateBalance_debit_done (db : DB) (u : Int) (a : ℚ) {c w : ℚ}
    (h : balanceOf db u = some (c, w)) (hle : ¬ c < a) :
    (BalanceRepo.UpdateBalance db none u a true).1 = .ok () ∧
    balanceOf (BalanceRepo.UpdateBalance db none u a true).2 u = some (c - a, w + a) := by
  rw [UpdateBalance_of_balanceOf db u a true h]
  simp [hle, balanceOf_updateBalanceRows, h, movedBalance]

theorem UpdateBalance_credit_done (db : DB) (u : Int) (a : ℚ) {c w : ℚ}
    (h : balanceOf db u = some (c, w)) :
    (BalanceRepo.UpdateBalance db none u a false).1 = .ok () ∧
    balanceOf (BalanceRepo.UpdateBalance db none u a false).2 u = some (c + a, w) := by
  rw [UpdateBalance_of_balanceOf db u a false h]
  simp [balanceOf_updateBalanceRows, h, movedBalance]

/-! ## Balance Ledger: the claims -/

/-- C1. `UpdateBalance` on a user whose stored balance is `(c, w)`, storage working: a DEBIT of
`a` fails with the error "insufficient funds" if and only if `c < a`, and then the database
(so the stored balance `(c, w)`) is as before; otherwise the DEBIT leaves `(c - a, w + a)`; a
CREDIT of `a` always leaves `(c + a, w)`.  In every case, also under a driver error, the
balance of every other user is unchanged. -/
theorem UpdateBalance_effect (db : DB) (u : Int) (c w a : ℚ)
    (h : balanceOf db u = some (c, w)) :
    ((BalanceRepo.UpdateBalance db none u a true).1 = .error "insufficient funds" ↔ c < a) ∧
    (c < a → (BalanceRepo.UpdateBalance db none u a true).2 = db ∧
      balanceOf (BalanceRepo.UpdateBalance db none u a true).2 u = some (c, w)) ∧
    (¬ c < a → (BalanceRepo.UpdateBalance db none u a true).1 = .ok () ∧
      balanceOf (BalanceRepo.UpdateBalance db none u a true).2 u = some (c - a, w + a)) ∧
    ((BalanceRepo.UpdateBalance db none u a false).1 = .ok () ∧
      balanceOf (BalanceRepo.UpdateBalance db none u a false).2 u = some (c + a, w)) ∧
    (∀ (fault : Option (TxStage × String)) (isW : Bool) (v : Int), v ≠ u →
      balanceOf (BalanceRepo.UpdateBalance db fault u a isW).2 v = balanceOf db v) := by
  refine ⟨?_, ?_, UpdateBalance_debit_done db u a h, UpdateBalance_credit_done db u a h, ?_⟩
  · constructor
    · intro herr
      by_contra hle
      rw [(UpdateBalance_debit_done db u a h hle).1] at herr
      exact absurd herr (by simp)
    · intro hlt
      rw [UpdateBalance_debit_refused db u a h hlt]
  · intro hlt
    rw [UpdateBalance_debit_refused db u a h hlt]
    exact ⟨rfl, h⟩
  · intro fault isW v hvu
    exact UpdateBalance_other db fault u v a isW hvu

/-- Witness of C1: a user with balance `(100, 0)`, amount `30`. -/
theorem UpdateBalance_effect_witness :
    balanceOf ⟨[], [⟨1, 100, 0⟩, ⟨2, 5, 0⟩], [], 1⟩ 1 = some (100, 0) ∧
    (BalanceRepo.UpdateBalance ⟨[], [⟨1, 100, 0⟩, ⟨2, 5, 0⟩], [], 1⟩ none 1 30 false).1
      = .ok () :=
  ⟨by decide,
    (UpdateBalance_effect ⟨[], [⟨1, 100, 0⟩, ⟨2, 5, 0⟩], [], 1⟩ 1 100 0 30
      (by decide)).2.2.2.1.1⟩

theorem applyOp_balance (u : Int) (db : DB) (op : BalanceOp) {c w : ℚ}
    (h : balanceOf db u = some (c, w)) :
    balanceOf (applyOp u db op) u =
      some (c + credited op - debited u db op, w + debited u db op) ∧
    (0 ≤ c → 0 ≤ op.amount → 0 ≤ c + credited op - debited u db op) := by
  obtain ⟨isW, a⟩ := op
  cases isW with
  | false =>
    obtain ⟨_, hb⟩ := UpdateBalance_credit_done db u a h
    simp only [applyOp, debited, credited, hb]
    simp
    intro hc ha
    linarith
  | true =>
    by_cases hlt : c < a
    · have hr := UpdateBalance_debit_refused db u a h hlt
      simp [applyOp, debited, credited, hr, h, Except.isOk, Except.toBool]
      intro hc _
      exact hc
    · obtain ⟨hok, hb⟩ := UpdateBalance_debit_done db u a h hlt
      simp only [applyOp, debited, credited, hb, hok]
      simp [Except.isOk, Except.toBool]
      intro _ _
      linarith

theorem creditSum_cons (op : BalanceOp) (ops : List BalanceOp) :
    creditSum (op :: ops) = credited op + creditSum ops := by
  obtain ⟨isW, a⟩ := op
  cases isW <;> simp [creditSum, credited, List.filter_cons]

theorem succeededDebitSum_cons (u : Int) (db : DB) (op : BalanceOp) (ops : List BalanceOp) :
    succeededDebitSum u db (op :: ops) =
      debited u db op + succeededDebitSum u (applyOp u db op) ops := rfl

theorem applyOps_balance (u : Int) (ops : List BalanceOp) :
    ∀ (db : DB) (c w : ℚ), balanceOf db u = some (c, w) → 0 ≤ c →
      (∀ op ∈ ops, 0 ≤ op.amount) →
      (∀ k : Nat, ∃ c1 w1 : ℚ,
        balanceOf (applyOps u db (ops.take k)) u = some (c1, w1) ∧ 0 ≤ c1) ∧
      balanceOf (applyOps u db ops) u =
        some (c + creditSum ops - succeededDebitSum u db ops,
          w + succeededDebitSum u db ops) := by
  induction ops with
  | nil =>
    intro db c w h hc _
    refine ⟨fun k => ⟨c, w, ?_, hc⟩, ?_⟩
    · simpa [applyOps] using h
    · simpa [applyOps, creditSum, succeededDebitSum] using h
  | cons op ops ih =>
    intro db c w h hc hpos
    obtain ⟨hb, hnn⟩ := applyOp_balance u db op h
    have hop : 0 ≤ op.amount := hpos op (List.mem_cons_self _ _)
    have hrest : ∀ o ∈ ops, 0 ≤ o.amount := fun o ho => hpos o (List.mem_cons_of_mem _ ho)
    obtain ⟨hpre, hfin⟩ := ih (applyOp u db op) _ _ hb (hnn hc hop) hrest
    refine ⟨?_, ?_⟩
    · intro k
      cases k with
      | zero => exact ⟨c, w, by simpa [applyOps] using h, hc⟩
      | succ k => simpa [applyOps] using hpre k
    · rw [creditSum_cons, succeededDebitSum_cons]
      have : applyOps u db (op :: ops) = applyOps u (applyOp u db op) ops := rfl
      rw [this, hfin]
      congr 2 <;> ring

/-- C2. Any finite sequence of CREDIT and DEBIT calls of `UpdateBalance` with non-negative
amounts, applied one after another (storage working) to a user whose balance starts at
`(0, 0)`: after every step `current` is non-negative, and at the end `current` is the sum of
the credits minus the sum of the debits that succeeded and `withdrawn` is the sum of the
debits that succeeded. -/
theorem balance_sequence_invariant (db : DB) (u : Int) (ops : List BalanceOp)
    (h0 : balanceOf db u = some (0, 0)) (hpos : ∀ op ∈ ops, 0 ≤ op.amount) :
    (∀ k : Nat, ∃ c w : ℚ,
      balanceOf (applyOps u db (ops.take k)) u = some (c, w) ∧ 0 ≤ c) ∧
    balanceOf (applyOps u db ops) u =
      some (creditSum ops - succeededDebitSum u db ops, succeededDebitSum u db ops) := by
  obtain ⟨hpre, hfin⟩ := applyOps_balance u ops db 0 0 h0 (le_refl 0) hpos
  refine ⟨hpre, ?_⟩
  rw [hfin]
  simp

/-- Witness of C2: credit 50, debit 80 (refused), debit 30 on a user starting at `(0, 0)`. -/
theorem balance_sequence_invariant_witness :
    balanceOf ⟨[], [⟨7, 0, 0⟩], [], 1⟩ 7 = some (0, 0) ∧
    (∀ op ∈ [(⟨false, 50⟩ : BalanceOp), ⟨true, 80⟩, ⟨true, 30⟩], 0 ≤ op.amount) ∧
    balanceOf (applyOps 7 ⟨[], [⟨7, 0, 0⟩], [], 1⟩ [⟨false, 50⟩, ⟨true, 80⟩, ⟨true, 30⟩]) 7 =
      some (creditSum [⟨false, 50⟩, ⟨true, 80⟩, ⟨true, 30⟩] -
          succeededDebitSum 7 ⟨[], [⟨7, 0, 0⟩], [], 1⟩ [⟨false, 50⟩, ⟨true, 80⟩, ⟨true, 30⟩],
        succeededDebitSum 7 ⟨[], [⟨7, 0, 0⟩], [], 1⟩ [⟨false, 50⟩, ⟨true, 80⟩, ⟨true, 30⟩]) :=
  ⟨by decide, by decide,
    (balance_sequence_invariant ⟨[], [⟨7, 0, 0⟩], [], 1⟩ 7
      [⟨false, 50⟩, ⟨true, 80⟩, ⟨true, 30⟩] (by decide) (by decide)).2⟩

/-! ## Withdrawal protocol: lemmas -/

theorem findOrder_eq_none_iff (db : DB) (id : String) :
    findOrder db id = none ↔ ∀ o ∈ db.orders, o.ID ≠ id := by
  simp [findOrder, List.find?_eq_none]

theorem findOrder_isSome_of_mem (db : DB) (id : String) (h : ∃ o ∈ db.orders, o.ID = id) :
    ∃ o, findOrder db id = some o := by
  cases hf : findOrder db id with
  | some o => exact ⟨o, rfl⟩
  | none =>
    obtain ⟨o, ho, hid⟩ := h
    exact absurd hid ((findOrder_eq_none_iff db id).mp hf o ho)

/-- A committed `UpdateBalance` DEBIT had a balance row that covered the amount. -/
theorem UpdateBalance_debit_ok (db : DB) (fault : Option (TxStage × String)) (u : Int) (a : ℚ)
    (h : (BalanceRepo.UpdateBalance db fault u a true).1 = .ok ()) :
    ∃ c w, balanceOf db u = some (c, w) ∧ a ≤ c ∧
      (BalanceRepo.UpdateBalance db fault u a true).2 =
        { db with balances := updateBalanceRows db.balances u a true } := by
  unfold BalanceRepo.UpdateBalance at h ⊢
  split at h
  · simp at h
  · split at h
    · simp at h
    · split at h
      · simp at h
      · rename_i row hrow
        split at h
        · simp at h
        · rename_i hnlt
          split at h
          · simp at h
          · split at h
            · simp at h
            · refine ⟨row.Current, row.Withdrawn, ?_, ?_, ?_⟩
              · simp [balanceOf, hrow]
              · simpa using hnlt
              · have hle : a ≤ row.Current := by simpa using hnlt
                simp_all [not_lt.mpr hle]

/-- What a successful `WithdrawPoints` went through. -/
theorem WithdrawPoints_ok (db : DB) (f : WithdrawFaults) (u : Int) (id : String) (a : ℚ)
    (h : (BalanceService.WithdrawPoints db f u id a).1 = .ok ()) :
    ValidateLuhn id = true ∧ findOrder db id = none ∧
    (BalanceRepo.UpdateBalance db f.updateBalance u a true).1 = .ok () ∧
    (BalanceService.WithdrawPoints db f u id a).2 =
      (WithdrawalRepo.Create (BalanceRepo.UpdateBalance db f.updateBalance u a true).2 none
        ⟨0, u, id, a⟩).2 := by
  unfold BalanceService.WithdrawPoints at h ⊢
  by_cases hl : ValidateLuhn id = true
  · simp only [hl, Bool.not_true, Bool.false_eq_true, if_false] at h ⊢
    unfold OrderRepo.CheckExists at h ⊢
    cases hce : f.checkExists with
    | some e => simp [hce] at h
    | none =>
      simp only [hce] at h ⊢
      cases hfo : findOrder db id with
      | some o => simp [hfo] at h
      | none =>
        simp only [hfo, Bool.false_eq_true, if_false] at h ⊢
        rcases hub : BalanceRepo.UpdateBalance db f.updateBalance u a true with ⟨r, db1⟩
        cases r with
        | error e => simp [hub] at h
        | ok x =>
          simp only [hub] at h ⊢
          unfold WithdrawalRepo.Create at h ⊢
          cases hcr : f.create with
          | some e => simp [hcr] at h
          | none => simp
  · simp [hl] at h

/-- With storage working, an absent valid order id and a balance that covers the amount,
`WithdrawPoints` debits the balance and appends the withdrawal record. -/
theorem WithdrawPoints_run (db : DB) (u : Int) (id : String) (a : ℚ) {c w : ℚ}
    (hl : ValidateLuhn id = true) (hfo : findOrder db id = none)
    (hb : balanceOf db u = some (c, w)) (hle : a ≤ c) :
    BalanceService.WithdrawPoints db withdrawOK u id a =
      (.ok (),
        { db with
          balances := updateBalanceRows db.balances u a true
          withdrawals := db.withdrawals ++ [⟨db.withdrawalSeq, u, id, a⟩]
          withdrawalSeq := db.withdrawalSeq + 1 }) := by
  have hub := UpdateBalance_of_balanceOf db u a true hb
  have hnlt : ¬ c < a := not_lt.mpr hle
  simp only [hnlt, decide_False, Bool.and_false, Bool.false_eq_true, if_false] at hub
  simp [BalanceService.WithdrawPoints, hl, OrderRepo.CheckExists, withdrawOK, hfo, hub,
    WithdrawalRepo.Create]

/-! ## Withdrawal protocol: the claims -/

/-- C5. When `WithdrawPoints(user, orderID, amount)` returns success, then `orderID` passed
`ValidateLuhn` and was absent from the Order Ledger, the balance of the user went from `(c, w)`
with `c >= amount` to `(c - amount, w + amount)`, exactly one record `(user, orderID, amount)`
was appended to the Withdrawal Ledger, and the Order Ledger and the balances of all other
users are unchanged. -/
theorem WithdrawPoints_success (db : DB) (f : WithdrawFaults) (u : Int) (id : String) (a : ℚ)
    (h : (BalanceService.WithdrawPoints db f u id a).1 = .ok ()) :
    ValidateLuhn id = true ∧ (∀ o ∈ db.orders, o.ID ≠ id) ∧
    (∃ c w, balanceOf db u = some (c, w) ∧ a ≤ c ∧
      balanceOf (BalanceService.WithdrawPoints db f u id a).2 u = some (c - a, w + a)) ∧
    (BalanceService.WithdrawPoints db f u id a).2.withdrawals =
      db.withdrawals ++ [⟨db.withdrawalSeq, u, id, a⟩] ∧
    (BalanceService.WithdrawPoints db f u id a).2.orders = db.orders ∧
    (∀ v, v ≠ u →
      balanceOf (BalanceService.WithdrawPoints db f u id a).2 v = balanceOf db v) := by
  obtain ⟨hl, hfo, hok, hdb⟩ := WithdrawPoints_ok db f u id a h
  obtain ⟨c, w, hb, hle, hub⟩ := UpdateBalance_debit_ok db f.updateBalance u a hok
  rw [hdb, hub]
  have hbal : ∀ v, balanceOf (WithdrawalRepo.Create
      { db with balances := updateBalanceRows db.balances u a true } none ⟨0, u, id, a⟩).2 v =
      balanceOf { db with balances := updateBalanceRows db.balances u a true } v := by
    intro v
    rfl
  refine ⟨hl, (findOrder_eq_none_iff db id).mp hfo, ⟨c, w, hb, hle, ?_⟩, rfl, rfl, ?_⟩
  · rw [hbal, balanceOf_updateBalanceRows, hb]
    simp [movedBalance]
  · intro v hvu
    rw [hbal, balanceOf_updateBalanceRows]
    cases balanceOf db v <;> simp [hvu]

/-- Witness of C5: user 1 with balance `(100, 0)` withdraws 40 against `"79927398713"`. -/
theorem WithdrawPoints_success_witness :
    (BalanceService.WithdrawPoints ⟨[], [⟨1, 100, 0⟩], [], 1⟩ withdrawOK 1 "79927398713" 40).1
      = .ok () ∧
    (BalanceService.WithdrawPoints ⟨[], [⟨1, 100, 0⟩], [], 1⟩ withdrawOK 1 "79927398713"
      40).2.withdrawals = [] ++ [⟨1, 1, "79927398713", 40⟩] :=
  ⟨by decide,
    (WithdrawPoints_success ⟨[], [⟨1, 100, 0⟩], [], 1⟩ withdrawOK 1 "79927398713" 40
      (by decide)).2.2.2.1⟩

/-- With a body that passes the handler, a valid order id that is not in the Order Ledger and
a sum above the current balance, `Server.withdraw` answers 500: the service wraps the text
"insufficient funds" and the handler compares with the bare text.  The database is as before. -/
theorem withdraw_insufficient_funds_general (db : DB) (u : Int) (id : String) (a c w : ℚ)
    (hid : id ≠ "") (ha : 0 < a) (hl : ValidateLuhn id = true)
    (hfo : findOrder db id = none) (hb : balanceOf db u = some (c, w)) (hlt : c < a) :
    BalanceService.WithdrawPoints db withdrawOK u id a =
      (.error "failed to withdraw points: insufficient funds", db) ∧
    Server.withdraw db withdrawOK "POST" (some ⟨id, a⟩) u = (500, db) := by
  have hub := UpdateBalance_debit_refused db u a hb hlt
  have hwp : BalanceService.WithdrawPoints db withdrawOK u id a =
      (.error "failed to withdraw points: insufficient funds", db) := by
    have hs : "failed to withdraw points: " ++ "insufficient funds" =
        "failed to withdraw points: insufficient funds" := by decide
    simp [BalanceService.WithdrawPoints, hl, OrderRepo.CheckExists, withdrawOK, hfo, hub, hs]
  refine ⟨hwp, ?_⟩
  have hna : ¬ a ≤ 0 := not_le.mpr ha
  simp only [Server.withdraw, hwp]
  simp [hid, hna]

/-- C6 (the code diverges). User 1 has `current = 100`; the request `POST {order:
"79927398713", sum: 150}` is well formed, the order number passes the checksum and is not in the
Order Ledger, the sum exceeds the balance.  `WithdrawPoints` returns the wrapped error
"failed to withdraw points: insufficient funds", the handler finds no match for it and answers
500, not 402.  The database is unchanged. -/
theorem withdraw_insufficient_funds_answer :
    BalanceService.WithdrawPoints dbOneUser withdrawOK 1 "79927398713" 150 =
      (.error "failed to withdraw points: insufficient funds", dbOneUser) ∧
    Server.withdraw dbOneUser withdrawOK "POST" (some ⟨"79927398713", 150⟩) 1 =
      (500, dbOneUser) := by
  decide

/-- C7. For every order number `n` present in the Order Ledger (whoever owns it), with the
existence check not failing: `WithdrawPoints` with `n` as order id fails with
"order already exists" and the handler `withdraw` answers 409; the database, so the balance and
the Withdrawal Ledger, is unchanged, whatever the funds of the user. -/
theorem WithdrawPoints_existing_order (db : DB) (f : WithdrawFaults) (u : Int) (n : String)
    (a : ℚ) (hinv : LedgerAdmitted db) (hn : ∃ o ∈ db.orders, o.ID = n)
    (hf : f.checkExists = none) (ha : 0 < a) :
    BalanceService.WithdrawPoints db f u n a = (.error "order already exists", db) ∧
    Server.withdraw db f "POST" (some ⟨n, a⟩) u = (409, db) := by
  obtain ⟨o, ho, hid⟩ := hn
  obtain ⟨hne, hl⟩ := hinv o ho
  rw [hid] at hne hl
  obtain ⟨o1, hfo⟩ := findOrder_isSome_of_mem db n ⟨o, ho, hid⟩
  have hwp : BalanceService.WithdrawPoints db f u n a = (.error "order already exists", db) := by
    simp [BalanceService.WithdrawPoints, hl, OrderRepo.CheckExists, hf, hfo]
  refine ⟨hwp, ?_⟩
  have hna : ¬ a ≤ 0 := not_le.mpr ha
  simp only [Server.withdraw, hwp]
  simp [hne, hna]

/-- Witness of C7: order `"79927398713"` belongs to user 2, user 1 asks to withdraw 10. -/
theorem WithdrawPoints_existing_order_witness :
    LedgerAdmitted dbWithOrder ∧
    (∃ o ∈ dbWithOrder.orders, o.ID = "79927398713") ∧
    Server.withdraw dbWithOrder withdrawOK "POST" (some ⟨"79927398713", 10⟩) 1 =
      (409, dbWithOrder) :=
  have hinv : LedgerAdmitted dbWithOrder := by
    intro o ho
    simp [dbWithOrder] at ho
    subst ho
    exact ⟨by decide, by decide⟩
  have hn : ∃ o ∈ dbWithOrder.orders, o.ID = "79927398713" :=
    ⟨⟨"79927398713", 2, StatusNew, 0⟩, by simp [dbWithOrder], rfl⟩
  ⟨hinv, hn,
    (WithdrawPoints_existing_order dbWithOrder withdrawOK 1 "79927398713" 10 hinv hn rfl
      (by norm_num)).2⟩

/-- C8 fails on the code. Users 1 and 2 hold 100 each and the Order Ledger is empty: user 1
withdraws 10 against `"79927398713"`, then user 2 withdraws 10 against the same number.  Both
calls succeed and the Withdrawal Ledger holds two records with that order id. -/
theorem withdrawal_order_id_reused :
    (BalanceService.WithdrawPoints dbTwoUsers withdrawOK 1 "79927398713" 10).1 = .ok () ∧
    (BalanceService.WithdrawPoints
      (BalanceService.WithdrawPoints dbTwoUsers withdrawOK 1 "79927398713" 10).2
      withdrawOK 2 "79927398713" 10).1 = .ok () ∧
    ((BalanceService.WithdrawPoints
      (BalanceService.WithdrawPoints dbTwoUsers withdrawOK 1 "79927398713" 10).2
      withdrawOK 2 "79927398713" 10).2.withdrawals.map (fun x => (x.UserID, x.OrderID))) =
      [(1, "79927398713"), (2, "79927398713")] := by
  decide

/-- C8 as amended. `WithdrawPoints` looks for the order id in the Order Ledger only and never
writes to it: with storage working a call is rejected with "order already exists" exactly when
the id passes the checksum and is in the Order Ledger; and after a successful call with order
id `n`, a later call with the same `n` by any user whose balance covers the amount succeeds
as well and appends a second record with order id `n`. -/
theorem WithdrawPoints_order_id_check (db : DB) (f : WithdrawFaults) (u v : Int) (n : String)
    (a b c w : ℚ)
    (h1 : (BalanceService.WithdrawPoints db f u n a).1 = .ok ())
    (hv : balanceOf (BalanceService.WithdrawPoints db f u n a).2 v = some (c, w))
    (hb : b ≤ c) :
    (∀ (d : DB) (x : Int) (m : String) (s : ℚ),
      (BalanceService.WithdrawPoints d withdrawOK x m s).1 = .error "order already exists" ↔
        (ValidateLuhn m = true ∧ ∃ o ∈ d.orders, o.ID = m)) ∧
    (BalanceService.WithdrawPoints db f u n a).2.orders = db.orders ∧
    (BalanceService.WithdrawPoints (BalanceService.WithdrawPoints db f u n a).2
      withdrawOK v n b).1 = .ok () ∧
    (BalanceService.WithdrawPoints (BalanceService.WithdrawPoints db f u n a).2
      withdrawOK v n b).2.withdrawals =
        db.withdrawals ++ [⟨db.withdrawalSeq, u, n, a⟩, ⟨db.withdrawalSeq + 1, v, n, b⟩] := by
  obtain ⟨hl, hfo, hok, hdb⟩ := WithdrawPoints_ok db f u n a h1
  obtain ⟨_, _, _, _, hub⟩ := UpdateBalance_debit_ok db f.updateBalance u a hok
  have hfo1 : findOrder (BalanceService.WithdrawPoints db f u n a).2 n = none := by
    rw [hdb, hub]
    exact hfo
  have hw1 : (BalanceService.WithdrawPoints db f u n a).2.withdrawals =
      db.withdrawals ++ [⟨db.withdrawalSeq, u, n, a⟩] := by
    rw [hdb, hub]
    rfl
  have hs1 : (BalanceService.WithdrawPoints db f u n a).2.withdrawalSeq =
      db.withdrawalSeq + 1 := by
    rw [hdb, hub]
    rfl
  refine ⟨?_, ?_, ?_, ?_⟩
  · intro d x m s
    by_cases hm : ValidateLuhn m = true
    · cases hfd : findOrder d m with
      | some o =>
        have hmem : ∃ o ∈ d.orders, o.ID = m := by
          refine ⟨o, List.mem_of_find?_eq_some hfd, ?_⟩
          simpa using List.find?_some hfd
        simp [BalanceService.WithdrawPoints, hm, OrderRepo.CheckExists, withdrawOK, hfd, hmem]
      | none =>
        have hnot : ¬ ∃ o ∈ d.orders, o.ID = m := by
          rintro ⟨o, ho, hid⟩
          exact (findOrder_eq_none_iff d m).mp hfd o ho hid
        simp only [BalanceService.WithdrawPoints, hm, OrderRepo.CheckExists, withdrawOK, hfd,
          hnot, and_false, iff_false]
        rcases hub2 : BalanceRepo.UpdateBalance d none x s true with ⟨r, d1⟩
        cases r with
        | ok y => simp [WithdrawalRepo.Create]
        | error e =>
          simp only [Bool.not_true, Bool.false_eq_true, if_false]
          intro hcontra
          have hdata := congrArg String.data (Except.error.inj hcontra)
          simp [String.data_append] at hdata
    · simp [BalanceService.WithdrawPoints, hm]
  · rw [hdb, hub]
    rfl
  · rw [WithdrawPoints_run _ v n b hl hfo1 hv hb]
  · rw [WithdrawPoints_run _ v n b hl hfo1 hv hb]
    simp [hw1, hs1]

/-- Witness of C8 as amended, on the two-user sample database. -/
theorem WithdrawPoints_order_id_check_witness :
    (BalanceService.WithdrawPoints dbTwoUsers withdrawOK 1 "79927398713" 10).1 = .ok () ∧
    balanceOf (BalanceService.WithdrawPoints dbTwoUsers withdrawOK 1 "79927398713" 10).2 2 =
      some (100, 0) ∧
    (BalanceService.WithdrawPoints
      (BalanceService.WithdrawPoints dbTwoUsers withdrawOK 1 "79927398713" 10).2
      withdrawOK 2 "79927398713" 25).1 = .ok () :=
  ⟨by decide, by decide,
    (WithdrawPoints_order_id_check dbTwoUsers withdrawOK 1 2 "79927398713" 10 25 100 0
      (by decide) (by decide) (by norm_num)).2.2.1⟩

/-! ## Order submission: lemmas -/

/-- With storage working, `UploadOrder` is decided by the checksum and the row found. -/
theorem UploadOrder_eq (db : DB) (id : String) (user : Int) :
    OrderService.UploadOrder db uploadOK id user =
      if ValidateLuhn id = false then (.error "invalid order number", db)
      else
        match findOrder db id with
        | some o =>
          if o.UserID = user then (.error "order already uploaded by you", db)
          else (.error "order already uploaded by another user", db)
        | none =>
          (.ok ⟨id, user, StatusNew, 0⟩,
            { db with orders := db.orders ++ [⟨id, user, StatusNew, 0⟩] }) := by
  unfold OrderService.UploadOrder
  by_cases hl : ValidateLuhn id = true
  · cases hfo : findOrder db id with
    | some o =>
      by_cases ho : o.UserID = user <;>
        simp [hl, OrderRepo.CheckExists, uploadOK, hfo, ho]
    | none => simp [hl, OrderRepo.CheckExists, uploadOK, hfo, OrderRepo.Create]
  · simp [hl]

theorem findOrder_append_self (db : DB) (o : Order) :
    ∃ o1, findOrder { db with orders := db.orders ++ [o] } o.ID = some o1 :=
  findOrder_isSome_of_mem _ _ ⟨o, by simp, rfl⟩

/-- Under any driver errors `UploadOrder` leaves the database or appends the row of a valid
order id. -/
theorem UploadOrder_db (db : DB) (f : UploadFaults) (id : String) (user : Int) :
    (OrderService.UploadOrder db f id user).2 = db ∨
    (ValidateLuhn id = true ∧
      (OrderService.UploadOrder db f id user).2 =
        { db with orders := db.orders ++ [⟨id, user, StatusNew, 0⟩] }) := by
  obtain ⟨fc, fcr⟩ := f
  unfold OrderService.UploadOrder OrderRepo.CheckExists OrderRepo.Create
  by_cases hl : ValidateLuhn id = true
  · cases fc with
    | some e => simp [hl]
    | none =>
      cases hfo : findOrder db id with
      | some o => by_cases ho : o.UserID = user <;> simp [hl, ho]
      | none => cases fcr <;> simp [hl, hfo]
  · simp [hl]

theorem uploadOrder_handler_db (db : DB) (f : UploadFaults) (body : String) (user : Int) :
    (Server.uploadOrder db f (some body) user).2 =
      if TrimSpace body = "" then db
      else (OrderService.UploadOrder db f (TrimSpace body) user).2 := by
  unfold Server.uploadOrder
  by_cases he : TrimSpace body = ""
  · simp [he]
  · simp only [beq_iff_eq, he, if_false]
    rcases OrderService.UploadOrder db f (TrimSpace body) user with ⟨r, d1⟩
    cases r with
    | ok o => rfl
    | error e =>
      simp only []
      split_ifs <;> rfl

/-- The handler `uploadOrder` keeps the Order Ledger invariant, under any driver errors. -/
theorem uploadOrder_keeps_LedgerAdmitted (db : DB) (f : UploadFaults) (body : Option String)
    (user : Int) (hinv : LedgerAdmitted db) :
    LedgerAdmitted (Server.uploadOrder db f body user).2 := by
  cases body with
  | none => exact hinv
  | some body =>
    rw [uploadOrder_handler_db]
    by_cases he : TrimSpace body = ""
    · simpa [he] using hinv
    · simp only [he, if_false]
      rcases UploadOrder_db db f (TrimSpace body) user with h | ⟨hl, h⟩
      · rw [h]
        exact hinv
      · rw [h]
        intro o ho
        simp only [List.mem_append, List.mem_singleton] at ho
        rcases ho with ho | ho
        · exact hinv o ho
        · subst ho
          exact ⟨he, hl⟩

/-- The statement `OrderRepo.Update` keeps the Order Ledger invariant: it rewrites status and
accrual only. -/
theorem Update_keeps_LedgerAdmitted (db : DB) (fault : Option String) (order : Order)
    (hinv : LedgerAdmitted db) : LedgerAdmitted (OrderRepo.Update db fault order).2 := by
  unfold OrderRepo.Update
  cases fault with
  | some e => exact hinv
  | none =>
    intro o ho
    simp only [List.mem_map] at ho
    obtain ⟨o0, ho0, hmap⟩ := ho
    have hid : o.ID = o0.ID := by
      rw [← hmap]
      split <;> rfl
    rw [hid]
    exact hinv o0 ho0

/-- The handler `withdraw` never writes to the Order Ledger, under any driver errors. -/
theorem withdraw_orders (db : DB) (f : WithdrawFaults) (method : String)
    (req : Option WithdrawalRequest) (user : Int) :
    (Server.withdraw db f method req user).2.orders = db.orders := by
  have hub : ∀ (a : ℚ) (x : Int),
      (BalanceRepo.UpdateBalance db f.updateBalance x a true).2.orders = db.orders := by
    intro a x
    rcases UpdateBalance_db db f.updateBalance x a true with h | h <;> rw [h]
  have hwp : ∀ (id : String) (a : ℚ),
      (BalanceService.WithdrawPoints db f user id a).2.orders = db.orders := by
    intro id a
    unfold BalanceService.WithdrawPoints
    split
    · rfl
    · split
      · rfl
      · split
        · rfl
        · have h := hub a user
          rcases hr : BalanceRepo.UpdateBalance db f.updateBalance user a true with ⟨r, d1⟩
          rw [hr] at h
          cases r with
          | error e => exact h
          | ok x =>
            unfold WithdrawalRepo.Create
            cases f.create <;> exact h
  unfold Server.withdraw
  split
  · rfl
  · cases req with
    | none => rfl
    | some rq =>
      simp only []
      split
      · rfl
      · have h := hwp rq.OrderID rq.Sum
        rcases hr : BalanceService.WithdrawPoints db f user rq.OrderID rq.Sum with ⟨r, d1⟩
        rw [hr] at h
        cases r with
        | ok x => exact h
        | error e =>
          simp only []
          split_ifs <;> exact h

/-! ## Order submission: the claims -/

/-- C4 fails on the code: `ValidateLuhn("")` is not false. -/
theorem ValidateLuhn_empty_not_rejected : ¬ (ValidateLuhn "" = false) := by
  decide

/-- C4 as amended. `ValidateLuhn("")` is true (no digit, checksum 0); the empty order number is
turned away one layer up: `uploadOrder` answers 400 to every body that is empty after trimming
and `withdraw` answers 400 to an empty `order` field, both under any driver errors and without
touching the database. -/
theorem ValidateLuhn_empty_guarded (db : DB) (uf : UploadFaults) (wf : WithdrawFaults)
    (user : Int) (sum : ℚ) (body : String) (h : TrimSpace body = "") :
    ValidateLuhn "" = true ∧
    Server.uploadOrder db uf (some body) user = (400, db) ∧
    Server.withdraw db wf "POST" (some ⟨"", sum⟩) user = (400, db) := by
  refine ⟨by decide, ?_, ?_⟩
  · simp [Server.uploadOrder, h]
  · simp [Server.withdraw]

/-- Witness of C4 as amended: a body of white space only, `" \t\r\n"`. -/
theorem ValidateLuhn_empty_guarded_witness :
    TrimSpace " \t\r\n" = "" ∧
    Server.uploadOrder dbOneUser uploadOK (some " \t\r\n") 1 = (400, dbOneUser) ∧
    Server.withdraw dbOneUser withdrawOK "POST" (some ⟨"", 10⟩) 1 = (400, dbOneUser) :=
  ⟨by decide,
    (ValidateLuhn_empty_guarded dbOneUser uploadOK withdrawOK 1 10 " \t\r\n" (by decide)).2⟩

/-- C9. Ledger effect of `UploadOrder(id, user)` with storage working: if `id` passes
`ValidateLuhn` and is absent from the Order Ledger, exactly the row
`(id, user, NEW, accrual 0)` is added and the other rows are as before; in every other case
(bad checksum, or `id` present under any owner) the database is exactly as it was; so a second
submission of the same id, by anyone, leaves the Order Ledger of the first. -/
theorem UploadOrder_ledger_effect (db : DB) (id : String) (user : Int) :
    ((ValidateLuhn id = true ∧ ∀ o ∈ db.orders, o.ID ≠ id) →
      (OrderService.UploadOrder db uploadOK id user).2.orders =
        db.orders ++ [⟨id, user, "NEW", 0⟩]) ∧
    (¬ (ValidateLuhn id = true ∧ ∀ o ∈ db.orders, o.ID ≠ id) →
      (OrderService.UploadOrder db uploadOK id user).2 = db) ∧
    (∀ user2 : Int,
      (OrderService.UploadOrder (OrderService.UploadOrder db uploadOK id user).2
        uploadOK id user2).2.orders =
      (OrderService.UploadOrder db uploadOK id user).2.orders) := by
  have hcase2 : ∀ (d : DB) (x : Int), ¬ (ValidateLuhn id = true ∧ ∀ o ∈ d.orders, o.ID ≠ id) →
      (OrderService.UploadOrder d uploadOK id x).2 = d := by
    intro d x hnot
    rw [UploadOrder_eq]
    by_cases hl : ValidateLuhn id = true
    · cases hfo : findOrder d id with
      | none => exact absurd ⟨hl, (findOrder_eq_none_iff d id).mp hfo⟩ hnot
      | some o => by_cases ho : o.UserID = x <;> simp [hl, ho]
    · simp [hl]
  refine ⟨?_, hcase2 db user, ?_⟩
  · rintro ⟨hl, habs⟩
    rw [UploadOrder_eq]
    simp [hl, (findOrder_eq_none_iff db id).mpr habs, StatusNew]
  · intro user2
    rw [hcase2]
    rintro ⟨hl, habs⟩
    by_cases h0 : ∀ o ∈ db.orders, o.ID ≠ id
    · rw [UploadOrder_eq] at habs
      simp only [hl, Bool.true_eq_false, if_false, (findOrder_eq_none_iff db id).mpr h0] at habs
      exact habs ⟨id, user, StatusNew, 0⟩ (by simp) rfl
    · rw [hcase2 db user (fun h => h0 h.2)] at habs
      exact h0 habs

/-- C10. With storage working the status code of Submit order is: 400 if the body is empty
after trimming white space; else 422 if the trimmed text fails `ValidateLuhn`; else 200 if the
id exists and is owned by the caller; else 409 if it exists under another owner; else 202. -/
theorem uploadOrder_status (db : DB) (body : String) (user : Int) :
    (Server.uploadOrder db uploadOK (some body) user).1 =
      if TrimSpace body = "" then 400
      else if ValidateLuhn (TrimSpace body) = false then 422
      else
        match findOrder db (TrimSpace body) with
        | some o => if o.UserID = user then 200 else 409
        | none => 202 := by
  unfold Server.uploadOrder
  by_cases he : TrimSpace body = ""
  · simp [he]
  · simp only [beq_iff_eq, he, if_false]
    rw [UploadOrder_eq]
    by_cases hl : ValidateLuhn (TrimSpace body) = true
    · cases hfo : findOrder db (TrimSpace body) with
      | none => simp [hl]
      | some o => by_cases ho : o.UserID = user <;> simp [hl, ho]
    · simp [hl]

/-! ## Lazy creation of balances -/

/-- Without a balance row `UpdateBalance` stops at the locking `SELECT`: the error is that of
`sql.ErrNoRows`, whatever the kind and the amount, and nothing is inserted. -/
theorem UpdateBalance_no_row (db : DB) (u : Int) (a : ℚ) (isW : Bool)
    (h : balanceOf db u = none) :
    BalanceRepo.UpdateBalance db none u a isW =
      (.error "failed to lock balance row: sql: no rows in result set", db) := by
  have hf : findBalance db u = none := by
    unfold balanceOf at h
    cases hfb : findBalance db u with
    | none => rfl
    | some row => simp [hfb] at h
  have hs : "failed to lock balance row: " ++ ErrNoRows =
      "failed to lock balance row: sql: no rows in result set" := by decide
  simp [BalanceRepo.UpdateBalance, faultAt, hf, hs]

/-- The sibling `GetOrCreate` is where a missing row is created: after it a CREDIT of `a`
leaves `(a, 0)`. -/
theorem GetOrCreate_then_credit (db : DB) (u : Int) (a : ℚ) (h : balanceOf db u = none) :
    balanceOf (BalanceRepo.GetOrCreate db ⟨none, none⟩ u).2 u = some (0, 0) ∧
    balanceOf (BalanceRepo.UpdateBalance (BalanceRepo.GetOrCreate db ⟨none, none⟩ u).2
      none u a false).2 u = some (a, 0) := by
  have hf : findBalance db u = none := by
    unfold balanceOf at h
    cases hfb : findBalance db u with
    | none => rfl
    | some row => simp [hfb] at h
  have h0 : balanceOf (BalanceRepo.GetOrCreate db ⟨none, none⟩ u).2 u = some (0, 0) := by
    unfold findBalance at hf
    simp [BalanceRepo.GetOrCreate, findBalance, hf, balanceOf, List.find?_append]
  refine ⟨h0, ?_⟩
  have h1 := (UpdateBalance_credit_done _ u a h0).2
  simpa using h1

/-- C11 (the code diverges). User 1 has no balance row.  A CREDIT of 50 through `UpdateBalance`
fails with "failed to lock balance row: sql: no rows in result set" and leaves the user without
a row (the claim: current = 50, withdrawn = 0); a DEBIT of 50 fails with the same error, not
with "insufficient funds". -/
theorem UpdateBalance_missing_row :
    balanceOf dbNoBalance 1 = none ∧
    BalanceRepo.UpdateBalance dbNoBalance none 1 50 false =
      (.error "failed to lock balance row: sql: no rows in result set", dbNoBalance) ∧
    BalanceRepo.UpdateBalance dbNoBalance none 1 50 true =
      (.error "failed to lock balance row: sql: no rows in result set", dbNoBalance) ∧
    balanceOf (BalanceRepo.UpdateBalance dbNoBalance none 1 50 false).2 1 = none := by
  decide

/-! ## Withdrawal protocol: failure of the append -/

/-- C19. `WithdrawPoints` is not atomic across the Balance and the Withdrawal Ledger: for a
valid order number absent from the Order Ledger and an amount `0 < a <= current`, when the
debit succeeds and the append to the Withdrawal Ledger fails with a driver error `e`,
`WithdrawPoints` returns an error, the balance stays debited `(c - a, w + a)` and the Withdrawal
Ledger is as before (no record for the withdrawal). -/
theorem WithdrawPoints_append_fails (db : DB) (u : Int) (id : String) (a c w : ℚ) (e : String)
    (hl : ValidateLuhn id = true) (habs : ∀ o ∈ db.orders, o.ID ≠ id)
    (hb : balanceOf db u = some (c, w)) (ha : 0 < a) (hle : a ≤ c) :
    (BalanceService.WithdrawPoints db ⟨none, none, some e⟩ u id a).1 =
      .error ("failed to create withdrawal record: " ++ ("failed to create withdrawal: " ++ e)) ∧
    balanceOf (BalanceService.WithdrawPoints db ⟨none, none, some e⟩ u id a).2 u =
      some (c - a, w + a) ∧
    (BalanceService.WithdrawPoints db ⟨none, none, some e⟩ u id a).2.withdrawals =
      db.withdrawals ∧
    (BalanceService.WithdrawPoints db ⟨none, none, some e⟩ u id a).2.orders = db.orders := by
  have _ := ha
  have hfo := (findOrder_eq_none_iff db id).mpr habs
  have hub := UpdateBalance_of_balanceOf db u a true hb
  have hnlt : ¬ c < a := not_lt.mpr hle
  simp only [hnlt, decide_False, Bool.and_false, Bool.false_eq_true, if_false] at hub
  have hwp : BalanceService.WithdrawPoints db ⟨none, none, some e⟩ u id a =
      (.error ("failed to create withdrawal record: " ++ ("failed to create withdrawal: " ++ e)),
        { db with balances := updateBalanceRows db.balances u a true }) := by
    simp [BalanceService.WithdrawPoints, hl, OrderRepo.CheckExists, hfo, hub,
      WithdrawalRepo.Create]
  rw [hwp]
  refine ⟨rfl, ?_, rfl, rfl⟩
  rw [balanceOf_updateBalanceRows, hb]
  simp [movedBalance]

/-- Witness of C19: user 1 holds 100, withdraws 40, the append fails with "connection reset". -/
theorem WithdrawPoints_append_fails_witness :
    ValidateLuhn "79927398713" = true ∧
    balanceOf dbOneUser 1 = some (100, 0) ∧
    balanceOf (BalanceService.WithdrawPoints dbOneUser ⟨none, none, some "connection reset"⟩ 1
      "79927398713" 40).2 1 = some (100 - 40, 0 + 40) :=
  ⟨by decide, by decide,
    (WithdrawPoints_append_fails dbOneUser 1 "79927398713" 40 100 0 "connection reset"
      (by decide) (by simp [dbOneUser]) (by decide) (by norm_num) (by norm_num)).2.1⟩

/-! ## Accrual reconciler: the oracle's answer -/

/-- C16. `checkOrderStatus` maps the answer of the oracle, for every order id: 200 with a
decodable body gives `(body.status, body.accrual)` and no error; 204 gives `(INVALID, 0)` and no
error; 429, every other status code, a transport error (also a request that could not be
built) and a 200 with an undecodable body all give an error; and when it gives an error the
loop body of `processNewOrders` leaves the database as it is for that order. -/
theorem checkOrderStatus_mapping (oracle : String → OracleReply) (id : String) :
    (∀ body ra, oracle id = .response ⟨200, .ok body, ra⟩ →
      AccrualService.checkOrderStatus oracle id = .ok (body.Status, body.Accrual)) ∧
    (∀ body ra, oracle id = .response ⟨204, body, ra⟩ →
      AccrualService.checkOrderStatus oracle id = .ok ("INVALID", 0)) ∧
    (∀ body ra, oracle id = .response ⟨429, body, ra⟩ →
      AccrualService.checkOrderStatus oracle id = .error "rate limited by accrual system") ∧
    (∀ code body ra, code ≠ 200 → code ≠ 204 → oracle id = .response ⟨code, body, ra⟩ →
      AccrualService.checkOrderStatus oracle id =
        .error (if code = 429 then "rate limited by accrual system"
          else "unexpected status code: " ++ toString code)) ∧
    (∀ e0, oracle id = .transportError e0 →
      AccrualService.checkOrderStatus oracle id = .error ("failed to send request: " ++ e0)) ∧
    (∀ e0, oracle id = .requestError e0 →
      AccrualService.checkOrderStatus oracle id = .error ("failed to create request: " ++ e0)) ∧
    (∀ e0 ra, oracle id = .response ⟨200, .error e0, ra⟩ →
      AccrualService.checkOrderStatus oracle id = .error ("failed to decode response: " ++ e0)) ∧
    (∀ (e : String) (faults : String → OrderFaults) (db : DB) (order : Order),
      order.ID = id → AccrualService.checkOrderStatus oracle id = .error e →
      AccrualService.processOrder oracle faults db order = db) := by
  refine ⟨?_, ?_, ?_, ?_, ?_, ?_, ?_, ?_⟩
  · intro body ra h
    simp [AccrualService.checkOrderStatus, h]
  · intro body ra h
    simp [AccrualService.checkOrderStatus, h, StatusInvalid]
  · intro body ra h
    simp [AccrualService.checkOrderStatus, h]
  · intro code body ra h200 h204 h
    by_cases h429 : code = 429
    · simp [AccrualService.checkOrderStatus, h, h429]
    · simp [AccrualService.checkOrderStatus, h, h200, h204, h429]
  · intro e0 h
    simp [AccrualService.checkOrderStatus, h]
  · intro e0 h
    simp [AccrualService.checkOrderStatus, h]
  · intro e0 ra h
    simp [AccrualService.checkOrderStatus, h]
  · intro e faults db order hid h
    simp [AccrualService.processOrder, hid, h]

/-! ## Status update of an order: lemmas -/

theorem findOrder_Update (db : DB) (ord : Order) (id : String) :
    findOrder (OrderRepo.Update db none ord).2 id =
      (findOrder db id).map (fun r =>
        if id = ord.ID then { r with Status := ord.Status, Accrual := ord.Accrual } else r) := by
  unfold findOrder OrderRepo.Update
  simp only []
  rw [List.find?_map]
  have hp : ((fun o : Order => o.ID == id) ∘ fun o : Order =>
      if o.ID == ord.ID then { o with Status := ord.Status, Accrual := ord.Accrual } else o) =
      fun o : Order => o.ID == id := by
    funext o
    simp only [Function.comp]
    split <;> rfl
  rw [hp]
  cases hf : db.orders.find? (fun o => o.ID == id) with
  | none => rfl
  | some r =>
    have hid : r.ID = id := by simpa using List.find?_some hf
    subst hid
    by_cases h : r.ID = ord.ID <;> simp [h]

theorem findOrder_id {db : DB} {id : String} {o : Order} (h : findOrder db id = some o) :
    o.ID = id := by
  unfold findOrder at h
  simpa using List.find?_some h

theorem findOrder_congr {db1 db2 : DB} (h : db1.orders = db2.orders) (id : String) :
    findOrder db1 id = findOrder db2 id := by
  unfold findOrder
  rw [h]

theorem balanceOf_congr {db1 db2 : DB} (h : db1.balances = db2.balances) (u : Int) :
    balanceOf db1 u = balanceOf db2 u := by
  unfold balanceOf findBalance
  rw [h]

theorem UpdateBalance_orders (db : DB) (fault : Option (TxStage × String)) (u : Int) (a : ℚ)
    (isW : Bool) : (BalanceRepo.UpdateBalance db fault u a isW).2.orders = db.orders := by
  rcases UpdateBalance_db db fault u a isW with h | h <;> rw [h]

/-- A driver error anywhere in a CREDIT makes `UpdateBalance` fail and roll back. -/
theorem UpdateBalance_credit_fault (db : DB) (x : TxStage × String) (u : Int) (a : ℚ) :
    (BalanceRepo.UpdateBalance db (some x) u a false).1.isOk = false ∧
    (BalanceRepo.UpdateBalance db (some x) u a false).2 = db := by
  obtain ⟨stage, e⟩ := x
  cases stage <;> cases hf : findBalance db u <;>
    simp [BalanceRepo.UpdateBalance, faultAt, hf, Except.isOk, Except.toBool]

/-- `UpdateOrderStatus` once the order is read: the three steps spelled out. -/
theorem UpdateOrderStatus_eq (db : DB) (f : StatusFaults) (id s : String) (a : ℚ) {o : Order}
    (hfo : findOrder db id = some o) (hf : f.getByID = none) :
    OrderService.UpdateOrderStatus db f id s a =
      if o.Status = s then (.ok (), db)
      else
        match (if s = StatusProcessed ∧ 0 < a then
            BalanceRepo.UpdateBalance db f.updateBalance o.UserID a false
          else (.ok (), db)) with
        | (.error e, db1) => (.error ("failed to update balance: " ++ e), db1)
        | (.ok _, db1) =>
          match OrderRepo.Update db1 f.update { o with Status := s, Accrual := a } with
          | (.error e, db2) => (.error ("failed to update order: " ++ e), db2)
          | (.ok _, db2) => (.ok (), db2) := by
  by_cases hs : o.Status = s
  · simp [OrderService.UpdateOrderStatus, OrderRepo.GetByID, hfo, hf, hs]
  · by_cases hc : s = StatusProcessed ∧ 0 < a
    · simp [OrderService.UpdateOrderStatus, OrderRepo.GetByID, hfo, hf, hs, hc.1, hc.2]
    · have hc2 : ¬ ((s == StatusProcessed && decide (a > 0)) = true) := by
        simpa using hc
      simp only [OrderService.UpdateOrderStatus, OrderRepo.GetByID, hfo, hf, hs, hc, hc2,
        if_false]
      simp [hs]

/-- An attempt that changes the status to `PROCESSED` and fails in the balance credit leaves
the database as it was. -/
theorem UpdateOrderStatus_credit_fails (db : DB) (f : StatusFaults) (id : String) (a : ℚ)
    {o : Order} (x : TxStage × String)
    (hfo : findOrder db id = some o) (hf : f.getByID = none) (hx : f.updateBalance = some x)
    (hst : o.Status ≠ StatusProcessed) (ha : 0 < a) :
    (OrderService.UpdateOrderStatus db f id StatusProcessed a).1.isOk = false ∧
    (OrderService.UpdateOrderStatus db f id StatusProcessed a).2 = db := by
  rw [UpdateOrderStatus_eq db f id StatusProcessed a hfo hf]
  obtain ⟨hok, hdb⟩ := UpdateBalance_credit_fault db x o.UserID a
  rcases hub : BalanceRepo.UpdateBalance db (some x) o.UserID a false with ⟨r, d1⟩
  rw [hub] at hok hdb
  cases r with
  | ok y => simp [Except.isOk, Except.toBool] at hok
  | error e =>
    simp only [] at hdb
    simp [hst, ha, hx, hub, hdb, Except.isOk, Except.toBool]

/-- An attempt that changes the status to `PROCESSED` and fails in the order update has
committed the credit and left the order row as it was. -/
theorem UpdateOrderStatus_update_fails (db : DB) (f : StatusFaults) (id : String) (a c w : ℚ)
    {o : Order} (e : String)
    (hfo : findOrder db id = some o) (hf : f.getByID = none) (hx : f.updateBalance = none)
    (he : f.update = some e) (hst : o.Status ≠ StatusProcessed) (ha : 0 < a)
    (hb : balanceOf db o.UserID = some (c, w)) :
    (OrderService.UpdateOrderStatus db f id StatusProcessed a).1 =
      .error ("failed to update order: " ++ ("failed to update order: " ++ e)) ∧
    findOrder (OrderService.UpdateOrderStatus db f id StatusProcessed a).2 id = some o ∧
    balanceOf (OrderService.UpdateOrderStatus db f id StatusProcessed a).2 o.UserID =
      some (c + a, w) := by
  rw [UpdateOrderStatus_eq db f id StatusProcessed a hfo hf]
  have hub := UpdateBalance_of_balanceOf db o.UserID a false hb
  simp only [Bool.false_and, Bool.false_eq_true, if_false] at hub
  simp only [hst, ha, hx, hub, and_self, if_true, if_false, OrderRepo.Update, he]
  refine ⟨trivial, ?_, ?_⟩
  · exact hfo
  · rw [balanceOf_updateBalanceRows, hb]
    simp [movedBalance]

/-- An attempt that changes the status to `PROCESSED` with storage working credits the owner
and writes the order. -/
theorem UpdateOrderStatus_processed (db : DB) (id : String) (a c w : ℚ) {o : Order}
    (hfo : findOrder db id = some o) (hst : o.Status ≠ StatusProcessed) (ha : 0 < a)
    (hb : balanceOf db o.UserID = some (c, w)) :
    (OrderService.UpdateOrderStatus db statusOK id StatusProcessed a).1 = .ok () ∧
    findOrder (OrderService.UpdateOrderStatus db statusOK id StatusProcessed a).2 id =
      some { o with Status := StatusProcessed, Accrual := a } ∧
    balanceOf (OrderService.UpdateOrderStatus db statusOK id StatusProcessed a).2 o.UserID =
      some (c + a, w) := by
  rw [UpdateOrderStatus_eq db statusOK id StatusProcessed a hfo rfl]
  have hub := UpdateBalance_of_balanceOf db o.UserID a false hb
  simp only [Bool.false_and, Bool.false_eq_true, if_false] at hub
  have hupd : ∀ d : DB, OrderRepo.Update d none { o with Status := StatusProcessed, Accrual := a }
      = (.ok (), (OrderRepo.Update d none
          { o with Status := StatusProcessed, Accrual := a }).2) := fun d => rfl
  simp only [hst, ha, statusOK, hub, and_self, if_true, if_false]
  rw [hupd]
  refine ⟨rfl, ?_, ?_⟩
  · rw [findOrder_Update]
    have h1 : findOrder { db with balances := updateBalanceRows db.balances o.UserID a false } id
        = some o := hfo
    simp [h1, findOrder_id hfo]
  · have h2 : balanceOf (OrderRepo.Update
        { db with balances := updateBalanceRows db.balances o.UserID a false } none
        { o with Status := StatusProcessed, Accrual := a }).2 o.UserID =
        balanceOf { db with balances := updateBalanceRows db.balances o.UserID a false }
          o.UserID := rfl
    rw [h2, balanceOf_updateBalanceRows, hb]
    simp [movedBalance]

theorem committedCredits_cons (f : StatusFaults) (fs : List StatusFaults) :
    committedCredits (f :: fs) =
      committedCredits fs + (if f.updateBalance = none then 1 else 0) := by
  unfold committedCredits
  cases h : f.updateBalance <;> simp [List.filter_cons, h]

/-- State after a run of failed attempts to mark an order `PROCESSED`: the order row is as
before and the balance holds one credit for every attempt that failed in the order update. -/
theorem retry_state (id : String) (a w : ℚ) (o : Order) (hst : o.Status ≠ StatusProcessed)
    (ha : 0 < a) (fs : List StatusFaults) :
    ∀ (db : DB) (c : ℚ), findOrder db id = some o → balanceOf db o.UserID = some (c, w) →
      (∀ f ∈ fs, f.getByID = none ∧ (f.updateBalance ≠ none ∨ f.update ≠ none)) →
      attemptsAllFail id StatusProcessed a db fs = true ∧
      findOrder (retryUpdateOrderStatus db fs id StatusProcessed a) id = some o ∧
      balanceOf (retryUpdateOrderStatus db fs id StatusProcessed a) o.UserID =
        some (c + committedCredits fs * a, w) := by
  induction fs with
  | nil =>
    intro db c hfo hb _
    refine ⟨rfl, hfo, ?_⟩
    simpa [retryUpdateOrderStatus, committedCredits] using hb
  | cons f fs ih =>
    intro db c hfo hb hfs
    obtain ⟨hg, hfail⟩ := hfs f (List.mem_cons_self _ _)
    have hrest : ∀ g ∈ fs, g.getByID = none ∧ (g.updateBalance ≠ none ∨ g.update ≠ none) :=
      fun g hgm => hfs g (List.mem_cons_of_mem _ hgm)
    have hstep : retryUpdateOrderStatus db (f :: fs) id StatusProcessed a =
        retryUpdateOrderStatus (OrderService.UpdateOrderStatus db f id StatusProcessed a).2 fs
          id StatusProcessed a := rfl
    rw [hstep, committedCredits_cons]
    unfold attemptsAllFail
    cases hx : f.updateBalance with
    | some x =>
      obtain ⟨hok, hdb⟩ := UpdateOrderStatus_credit_fails db f id a x hfo hg hx hst ha
      obtain ⟨h1, h2, h3⟩ := ih db c (by rw [hdb] at *; exact hfo) hb hrest
      rw [hdb, hok]
      refine ⟨by simpa using h1, h2, ?_⟩
      rw [h3]
      simp
    | none =>
      have hupd : f.update ≠ none := by
        rcases hfail with h | h
        · exact absurd hx h
        · exact h
      obtain ⟨e, he⟩ := Option.ne_none_iff_exists'.mp hupd
      obtain ⟨herr, hfo1, hb1⟩ :=
        UpdateOrderStatus_update_fails db f id a c w e hfo hg hx he hst ha hb
      obtain ⟨h1, h2, h3⟩ := ih _ (c + a) hfo1 hb1 hrest
      refine ⟨?_, h2, ?_⟩
      · rw [herr]
        simpa [Except.isOk, Except.toBool] using h1
      · rw [h3]
        congr 2
        simp
        ring

/-! ## Status update of an order: the claims -/

/-- C13 fails on the code. Order `"79927398713"` of user 1 is `PROCESSING`, the balance of
user 1 is `(0, 0)`.  The first call `UpdateOrderStatus(id, PROCESSED, 500)` fails in the order
update step, the second call with the same arguments succeeds: `current` ends at 1000, twice
the accrual. -/
theorem UpdateOrderStatus_retry_credits_twice :
    balanceOf dbProcessing 1 = some (0, 0) ∧
    (OrderService.UpdateOrderStatus dbProcessing ⟨none, none, some "connection lost"⟩
      "79927398713" "PROCESSED" 500).1 =
        .error "failed to update order: failed to update order: connection lost" ∧
    (OrderService.UpdateOrderStatus
      (OrderService.UpdateOrderStatus dbProcessing ⟨none, none, some "connection lost"⟩
        "79927398713" "PROCESSED" 500).2 statusOK "79927398713" "PROCESSED" 500).1 = .ok () ∧
    balanceOf (OrderService.UpdateOrderStatus
      (OrderService.UpdateOrderStatus dbProcessing ⟨none, none, some "connection lost"⟩
        "79927398713" "PROCESSED" 500).2 statusOK "79927398713" "PROCESSED" 500).2 1 =
      some (1000, 0) := by
  have hfo : findOrder dbProcessing "79927398713" =
      some ⟨"79927398713", 1, StatusProcessing, 0⟩ := by decide
  have hst : (⟨"79927398713", 1, StatusProcessing, 0⟩ : Order).Status ≠ StatusProcessed := by
    decide
  have hb : balanceOf dbProcessing (⟨"79927398713", 1, StatusProcessing, 0⟩ : Order).UserID =
      some (0, 0) := by decide
  obtain ⟨h1, h2, h3⟩ := UpdateOrderStatus_update_fails dbProcessing
    ⟨none, none, some "connection lost"⟩ "79927398713" 500 0 0 "connection lost" hfo rfl rfl rfl
    hst (by norm_num) hb
  obtain ⟨h4, _, h6⟩ := UpdateOrderStatus_processed _ "79927398713" 500 (0 + 500) 0 h2 hst
    (by norm_num) h3
  refine ⟨by decide, ?_, h4, ?_⟩
  · exact h1
  · have h7 : ((0 : ℚ) + 500 + 500, (0 : ℚ)) = (1000, 0) := by norm_num
    rw [← h7]
    exact h6

/-- C13 as amended. `UpdateOrderStatus(id, PROCESSED, a)` with `a > 0` on an order that is not
yet `PROCESSED` credits the owner in a committed transaction and then writes the order.  When
the call fails in the credit or in the order update and is repeated with the same arguments
until it succeeds: every failed attempt leaves the order row as it was, and `current` ends
`(k + 1) * a` higher than before the first attempt, `k` being the number of attempts that failed
in the order update (after their credit was committed); the order ends `PROCESSED` with
accrual `a`. -/
theorem UpdateOrderStatus_retry (db : DB) (id : String) (o : Order) (a c w : ℚ)
    (fs : List StatusFaults)
    (hfo : findOrder db id = some o) (hst : o.Status ≠ StatusProcessed) (ha : 0 < a)
    (hb : balanceOf db o.UserID = some (c, w))
    (hfs : ∀ f ∈ fs, f.getByID = none ∧ (f.updateBalance ≠ none ∨ f.update ≠ none)) :
    attemptsAllFail id StatusProcessed a db fs = true ∧
    (OrderService.UpdateOrderStatus (retryUpdateOrderStatus db fs id StatusProcessed a)
      statusOK id StatusProcessed a).1 = .ok () ∧
    balanceOf (OrderService.UpdateOrderStatus
      (retryUpdateOrderStatus db fs id StatusProcessed a) statusOK id StatusProcessed a).2
      o.UserID = some (c + (committedCredits fs + 1) * a, w) ∧
    findOrder (OrderService.UpdateOrderStatus
      (retryUpdateOrderStatus db fs id StatusProcessed a) statusOK id StatusProcessed a).2 id =
      some { o with Status := StatusProcessed, Accrual := a } := by
  obtain ⟨hall, hfo1, hb1⟩ := retry_state id a w o hst ha fs db c hfo hb hfs
  obtain ⟨hok, hrow, hbal⟩ := UpdateOrderStatus_processed
    (retryUpdateOrderStatus db fs id StatusProcessed a) id a _ w hfo1 hst ha hb1
  refine ⟨hall, hok, ?_, hrow⟩
  rw [hbal]
  congr 2
  ring

/-- Witness of C13 as amended: one attempt fails in the credit, one in the order update. -/
theorem UpdateOrderStatus_retry_witness :
    findOrder dbProcessing "79927398713" = some ⟨"79927398713", 1, "PROCESSING", 0⟩ ∧
    balanceOf dbProcessing 1 = some (0, 0) ∧
    committedCredits [⟨none, some (.Commit, "timeout"), none⟩, ⟨none, none, some "timeout"⟩] = 1 ∧
    balanceOf (OrderService.UpdateOrderStatus
      (retryUpdateOrderStatus dbProcessing
        [⟨none, some (.Commit, "timeout"), none⟩, ⟨none, none, some "timeout"⟩]
        "79927398713" StatusProcessed 500) statusOK "79927398713" StatusProcessed 500).2 1 =
      some (0 + (((committedCredits
        [⟨none, some (.Commit, "timeout"), none⟩, ⟨none, none, some "timeout"⟩] : ℕ) : ℚ) + 1)
          * 500, 0) :=
  ⟨by decide, by decide, by decide,
    (UpdateOrderStatus_retry dbProcessing "79927398713" ⟨"79927398713", 1, "PROCESSING", 0⟩
      500 0 0 [⟨none, some (.Commit, "timeout"), none⟩, ⟨none, none, some "timeout"⟩]
      (by decide) (by decide) (by norm_num) (by decide) (by
        intro f hf
        simp only [List.mem_cons, List.mem_singleton, List.not_mem_nil, or_false] at hf
        rcases hf with rfl | rfl <;> simp)).2.2.1⟩

/-- After a successful `UpdateOrderStatus` the stored status of the order is the given one;
and the call read the order without a driver error. -/
theorem UpdateOrderStatus_ok_stored (db : DB) (f : StatusFaults) (id s : String) (a : ℚ)
    (h : (OrderService.UpdateOrderStatus db f id s a).1 = .ok ()) :
    f.getByID = none ∧
    ∃ o1, findOrder (OrderService.UpdateOrderStatus db f id s a).2 id = some o1 ∧
      o1.Status = s := by
  cases hg : f.getByID with
  | some e => simp [OrderService.UpdateOrderStatus, OrderRepo.GetByID, hg] at h
  | none =>
    refine ⟨rfl, ?_⟩
    cases hfo : findOrder db id with
    | none => simp [OrderService.UpdateOrderStatus, OrderRepo.GetByID, hg, hfo] at h
    | some o =>
      rw [UpdateOrderStatus_eq db f id s a hfo hg] at h ⊢
      by_cases hs : o.Status = s
      · simp only [hs, if_true]
        exact ⟨o, hfo, hs⟩
      · simp only [hs, if_false] at h ⊢
        have hord : (if s = StatusProcessed ∧ 0 < a then
            BalanceRepo.UpdateBalance db f.updateBalance o.UserID a false
          else (.ok (), db)).2.orders = db.orders := by
          split
          · exact UpdateBalance_orders db f.updateBalance o.UserID a false
          · rfl
        rcases hcr : (if s = StatusProcessed ∧ 0 < a then
            BalanceRepo.UpdateBalance db f.updateBalance o.UserID a false
          else (.ok (), db)) with ⟨r, d1⟩
        rw [hcr] at h hord
        cases r with
        | error e => simp at h
        | ok y =>
          simp only [] at h hord ⊢
          cases hu : f.update with
          | some e => simp [hu, OrderRepo.Update] at h
          | none =>
            have hupd : OrderRepo.Update d1 none { o with Status := s, Accrual := a } =
                (.ok (), (OrderRepo.Update d1 none { o with Status := s, Accrual := a }).2) :=
              rfl
            rw [hupd]
            simp only []
            rw [findOrder_Update, findOrder_congr hord id, hfo]
            exact ⟨_, rfl, by simp [findOrder_id hfo]⟩

/-- C18. `UpdateOrderStatus` only acts when the status changes.  When the stored status of the
order equals the given status the call succeeds and returns the database untouched (no order
write, no balance credit), whatever the given accrual and whatever driver errors wait in the
later steps; so of two successive successful calls with the same `(status, accrual)` the
second leaves the database of the first. -/
theorem UpdateOrderStatus_same_status (db : DB) (f1 f2 : StatusFaults) (id s : String) (a : ℚ)
    (h1 : (OrderService.UpdateOrderStatus db f1 id s a).1 = .ok ())
    (h2 : (OrderService.UpdateOrderStatus (OrderService.UpdateOrderStatus db f1 id s a).2
      f2 id s a).1 = .ok ()) :
    (∀ (d : DB) (g : StatusFaults) (o : Order) (b : ℚ), findOrder d id = some o →
      o.Status = s → g.getByID = none →
      OrderService.UpdateOrderStatus d g id s b = (.ok (), d)) ∧
    (OrderService.UpdateOrderStatus (OrderService.UpdateOrderStatus db f1 id s a).2
      f2 id s a).2 = (OrderService.UpdateOrderStatus db f1 id s a).2 := by
  have hnoop : ∀ (d : DB) (g : StatusFaults) (o : Order) (b : ℚ), findOrder d id = some o →
      o.Status = s → g.getByID = none →
      OrderService.UpdateOrderStatus d g id s b = (.ok (), d) := by
    intro d g o b hfo hs hg
    rw [UpdateOrderStatus_eq d g id s b hfo hg]
    simp [hs]
  refine ⟨hnoop, ?_⟩
  obtain ⟨_, o1, hfo1, hs1⟩ := UpdateOrderStatus_ok_stored db f1 id s a h1
  obtain ⟨hg2, _⟩ := UpdateOrderStatus_ok_stored _ f2 id s a h2
  rw [hnoop _ f2 o1 a hfo1 hs1 hg2]

/-- Witness of C18: the order is marked `PROCESSED` with accrual 500, then the call is
repeated. -/
theorem UpdateOrderStatus_same_status_witness :
    (OrderService.UpdateOrderStatus dbProcessing statusOK "79927398713" "PROCESSED" 500).1
      = .ok () ∧
    (OrderService.UpdateOrderStatus
      (OrderService.UpdateOrderStatus dbProcessing statusOK "79927398713" "PROCESSED" 500).2
      statusOK "79927398713" "PROCESSED" 500).2 =
    (OrderService.UpdateOrderStatus dbProcessing statusOK "79927398713" "PROCESSED" 500).2 :=
  ⟨by decide,
    (UpdateOrderStatus_same_status dbProcessing statusOK statusOK "79927398713" "PROCESSED" 500
      (by decide) (by decide)).2⟩

/-- What `AccrualService.updateOrderStatus` does to a stored order with storage working: the
row takes the given status and accrual, the balances are not touched. -/
theorem updateOrderStatus_writes (db : DB) (id s : String) (a : ℚ) {o : Order}
    (hfo : findOrder db id = some o) :
    (AccrualService.updateOrderStatus db ⟨none, none⟩ id s a).1 = .ok () ∧
    findOrder (AccrualService.updateOrderStatus db ⟨none, none⟩ id s a).2 id =
      some { o with Status := s, Accrual := a } ∧
    (AccrualService.updateOrderStatus db ⟨none, none⟩ id s a).2.balances = db.balances := by
  have hupd : AccrualService.updateOrderStatus db ⟨none, none⟩ id s a =
      (.ok (), (OrderRepo.Update db none { o with Status := s, Accrual := a }).2) := by
    simp [AccrualService.updateOrderStatus, OrderRepo.GetByID, hfo, OrderRepo.Update]
  rw [hupd]
  refine ⟨rfl, ?_, rfl⟩
  simp only []
  rw [findOrder_Update, hfo]
  simp [findOrder_id hfo]

/-- C14 fails on the code. Order `"79927398713"` of user 1 is `PROCESSED` with accrual 500 and
the balance of user 1 is `(500, 0)`.  `OrderService.UpdateOrderStatus(id, NEW, 0)` rewrites the
row to `NEW` with accrual 0, `AccrualService.updateOrderStatus(id, INVALID, 0)` rewrites it to
`INVALID`, and after the rewrite to `NEW` a further `UpdateOrderStatus(id, PROCESSED, 500)`
credits the owner a second time: `current` is 1000. -/
theorem terminal_status_overwritten :
    findOrder dbProcessed "79927398713" = some ⟨"79927398713", 1, "PROCESSED", 500⟩ ∧
    findOrder (OrderService.UpdateOrderStatus dbProcessed statusOK "79927398713" "NEW" 0).2
      "79927398713" = some ⟨"79927398713", 1, "NEW", 0⟩ ∧
    findOrder (AccrualService.updateOrderStatus dbProcessed ⟨none, none⟩ "79927398713"
      "INVALID" 0).2 "79927398713" = some ⟨"79927398713", 1, "INVALID", 0⟩ ∧
    balanceOf dbProcessed 1 = some (500, 0) ∧
    balanceOf (OrderService.UpdateOrderStatus
      (OrderService.UpdateOrderStatus dbProcessed statusOK "79927398713" "NEW" 0).2
      statusOK "79927398713" "PROCESSED" 500).2 1 = some (1000, 0) := by
  have h2 : findOrder (OrderService.UpdateOrderStatus dbProcessed statusOK "79927398713"
      "NEW" 0).2 "79927398713" = some ⟨"79927398713", 1, "NEW", 0⟩ := by decide
  have hb : balanceOf (OrderService.UpdateOrderStatus dbProcessed statusOK "79927398713"
      "NEW" 0).2 (⟨"79927398713", 1, "NEW", 0⟩ : Order).UserID = some (500, 0) := by decide
  obtain ⟨_, _, h6⟩ := UpdateOrderStatus_processed _ "79927398713" 500 500 0 h2 (by decide)
    (by norm_num) hb
  refine ⟨by decide, h2, by decide, by decide, ?_⟩
  have h7 : ((500 : ℚ) + 500, (0 : ℚ)) = (1000, 0) := by norm_num
  rw [← h7]
  exact h6

/-- C14 as amended. Neither function looks at whether the stored status is terminal.  For a
stored order in any status (also `INVALID` or `PROCESSED`) and storage working:
`OrderService.UpdateOrderStatus` changes nothing when the given status equals the stored one;
otherwise it overwrites status and accrual with its arguments, and when the new status is
`PROCESSED` with a positive accrual it credits the balance of the owner by the accrual, else it
leaves the balances alone.  `AccrualService.updateOrderStatus` overwrites status and accrual
with its arguments in every case and never touches a balance. -/
theorem UpdateOrderStatus_overwrites (db : DB) (id s : String) (a : ℚ) (o : Order)
    (hfo : findOrder db id = some o) :
    (o.Status = s → OrderService.UpdateOrderStatus db statusOK id s a = (.ok (), db)) ∧
    (o.Status ≠ s → ¬ (s = StatusProcessed ∧ 0 < a) →
      (OrderService.UpdateOrderStatus db statusOK id s a).1 = .ok () ∧
      findOrder (OrderService.UpdateOrderStatus db statusOK id s a).2 id =
        some { o with Status := s, Accrual := a } ∧
      (OrderService.UpdateOrderStatus db statusOK id s a).2.balances = db.balances) ∧
    (o.Status ≠ s → s = StatusProcessed → 0 < a →
      ∀ c w, balanceOf db o.UserID = some (c, w) →
        (OrderService.UpdateOrderStatus db statusOK id s a).1 = .ok () ∧
        findOrder (OrderService.UpdateOrderStatus db statusOK id s a).2 id =
          some { o with Status := s, Accrual := a } ∧
        balanceOf (OrderService.UpdateOrderStatus db statusOK id s a).2 o.UserID =
          some (c + a, w)) ∧
    ((AccrualService.updateOrderStatus db ⟨none, none⟩ id s a).1 = .ok () ∧
      findOrder (AccrualService.updateOrderStatus db ⟨none, none⟩ id s a).2 id =
        some { o with Status := s, Accrual := a } ∧
      (AccrualService.updateOrderStatus db ⟨none, none⟩ id s a).2.balances = db.balances) := by
  refine ⟨?_, ?_, ?_, updateOrderStatus_writes db id s a hfo⟩
  · intro hs
    rw [UpdateOrderStatus_eq db statusOK id s a hfo rfl]
    simp [hs]
  · intro hs hc
    rw [UpdateOrderStatus_eq db statusOK id s a hfo rfl]
    have hupd : OrderRepo.Update db none { o with Status := s, Accrual := a } =
        (.ok (), (OrderRepo.Update db none { o with Status := s, Accrual := a }).2) := rfl
    simp only [hs, hc, if_false, statusOK]
    rw [hupd]
    refine ⟨rfl, ?_, rfl⟩
    simp only []
    rw [findOrder_Update, hfo]
    simp [findOrder_id hfo]
  · intro hs hp ha c w hb
    subst hp
    exact UpdateOrderStatus_processed db id a c w hfo hs ha hb

/-- Witness of C14 as amended, at an order that is already `PROCESSED`. -/
theorem UpdateOrderStatus_overwrites_witness :
    findOrder dbProcessed "79927398713" = some ⟨"79927398713", 1, "PROCESSED", 500⟩ ∧
    findOrder (AccrualService.updateOrderStatus dbProcessed ⟨none, none⟩ "79927398713"
      "PROCESSING" 7).2 "79927398713" = some ⟨"79927398713", 1, "PROCESSING", 7⟩ :=
  ⟨by decide,
    (UpdateOrderStatus_overwrites dbProcessed "79927398713" "PROCESSING" 7
      ⟨"79927398713", 1, "PROCESSED", 500⟩ (by decide)).2.2.2.2.1⟩

/-! ## Accrual reconciler: the loop -/

theorem findOrder_updateOrderStatus (db : DB) (f : OrderFaults) (id s : String) (a : ℚ)
    (id2 : String) :
    findOrder (AccrualService.updateOrderStatus db f id s a).2 id2 =
      if f.getByID.isNone && f.update.isNone && id2 == id then
        (findOrder db id2).map (fun r => { r with Status := s, Accrual := a })
      else findOrder db id2 := by
  obtain ⟨fg, fu⟩ := f
  cases fg with
  | some e => simp [AccrualService.updateOrderStatus, OrderRepo.GetByID]
  | none =>
    cases hfo : findOrder db id with
    | none =>
      by_cases hid : id2 = id
      · subst hid
        simp [AccrualService.updateOrderStatus, OrderRepo.GetByID, hfo]
      · simp [AccrualService.updateOrderStatus, OrderRepo.GetByID, hfo, hid]
    | some o =>
      cases fu with
      | some e => simp [AccrualService.updateOrderStatus, OrderRepo.GetByID, hfo, OrderRepo.Update]
      | none =>
        have hupd : AccrualService.updateOrderStatus db ⟨none, none⟩ id s a =
            (.ok (), (OrderRepo.Update db none { o with Status := s, Accrual := a }).2) := by
          simp [AccrualService.updateOrderStatus, OrderRepo.GetByID, hfo, OrderRepo.Update]
        rw [hupd]
        simp only []
        rw [findOrder_Update]
        have hoid := findOrder_id hfo
        by_cases hid : id2 = id
        · simp [hid, hoid]
        · simp [hid, hoid]

theorem findOrder_processOrder (oracle : String → OracleReply) (faults : String → OrderFaults)
    (db : DB) (o : Order) (id2 : String) :
    findOrder (AccrualService.processOrder oracle faults db o) id2 =
      if id2 = o.ID then reconciledRow oracle faults o (findOrder db id2)
      else findOrder db id2 := by
  unfold AccrualService.processOrder reconciledRow
  cases AccrualService.checkOrderStatus oracle o.ID with
  | error e => simp
  | ok r =>
    obtain ⟨s, a⟩ := r
    simp only []
    by_cases hs : s = o.Status
    · simp [hs]
    · simp only [bne_iff_ne, ne_eq, hs, not_false_eq_true, if_true, Bool.true_and,
        decide_True, decide_not]
      rw [findOrder_updateOrderStatus]
      by_cases hid : id2 = o.ID
      · simp [hid, hs]
      · simp [hid]

theorem processOrders_cons (oracle : String → OracleReply) (faults : String → OrderFaults)
    (db : DB) (x : Order) (xs : List Order) :
    AccrualService.processOrders oracle faults db (x :: xs) =
      AccrualService.processOrders oracle faults
        (AccrualService.processOrder oracle faults db x) xs := rfl

/-- Orders with another id leave the row of `id` alone. -/
theorem processOrders_other (oracle : String → OracleReply) (faults : String → OrderFaults)
    (id : String) (xs : List Order) :
    ∀ db : DB, (∀ x ∈ xs, x.ID ≠ id) →
      findOrder (AccrualService.processOrders oracle faults db xs) id = findOrder db id := by
  induction xs with
  | nil => intro db _; rfl
  | cons x xs ih =>
    intro db h
    have hx : ¬ id = x.ID := fun hc => h x (List.mem_cons_self _ _) hc.symm
    rw [processOrders_cons, ih _ (fun y hy => h y (List.mem_cons_of_mem _ hy)),
      findOrder_processOrder]
    simp [hx]

/-- In a list of orders with pairwise different ids the row of each order ends as its own turn
in the loop leaves it. -/
theorem processOrders_own_turn (oracle : String → OracleReply) (faults : String → OrderFaults)
    (o : Order) (xs : List Order) :
    ∀ db : DB, (xs.map (fun x => x.ID)).Nodup → o ∈ xs →
      findOrder (AccrualService.processOrders oracle faults db xs) o.ID =
        reconciledRow oracle faults o (findOrder db o.ID) := by
  induction xs with
  | nil => intro db _ ho; simp at ho
  | cons x xs ih =>
    intro db hnd ho
    rw [List.map_cons, List.nodup_cons] at hnd
    obtain ⟨hx, hnd⟩ := hnd
    rw [processOrders_cons]
    by_cases hxo : x = o
    · subst hxo
      have hothers : ∀ y ∈ xs, y.ID ≠ x.ID := by
        intro y hy hc
        exact hx (List.mem_map.mpr ⟨y, hy, hc⟩)
      rw [processOrders_other oracle faults x.ID xs _ hothers, findOrder_processOrder]
      simp
    · have hoxs : o ∈ xs := by
        rcases List.mem_cons.mp ho with h | h
        · exact absurd h.symm hxo
        · exact h
      have hid : ¬ o.ID = x.ID := by
        intro hc
        exact hx (List.mem_map.mpr ⟨o, hoxs, hc⟩)
      rw [ih _ hnd hoxs, findOrder_processOrder]
      simp [hid]

theorem reconciledRow_congr (oracle oracle2 : String → OracleReply)
    (faults faults2 : String → OrderFaults) (o : Order) (row : Option Order)
    (h1 : oracle2 o.ID = oracle o.ID) (h2 : faults2 o.ID = faults o.ID) :
    reconciledRow oracle2 faults2 o row = reconciledRow oracle faults o row := by
  unfold reconciledRow AccrualService.checkOrderStatus
  rw [h1, h2]

/-- C17. Failures are isolated per order within a tick.  For every list of orders with
pairwise different ids handed to the loop of `processNewOrders` and every assignment of oracle
answers and driver errors: the row of an order of the list ends exactly as if the loop had run
for this order alone; it is the same under any other answers and errors for the other orders;
and an order whose own check succeeds with a status different from its stored one, and whose
own update meets no driver error, ends with that status and accrual. -/
theorem processOrders_isolated (oracle : String → OracleReply) (faults : String → OrderFaults)
    (db : DB) (orders : List Order) (o : Order)
    (hnodup : (orders.map (fun x => x.ID)).Nodup) (ho : o ∈ orders) :
    findOrder (AccrualService.processOrders oracle faults db orders) o.ID =
      findOrder (AccrualService.processOrder oracle faults db o) o.ID ∧
    (∀ (oracle2 : String → OracleReply) (faults2 : String → OrderFaults),
      oracle2 o.ID = oracle o.ID → faults2 o.ID = faults o.ID →
      findOrder (AccrualService.processOrders oracle2 faults2 db orders) o.ID =
        findOrder (AccrualService.processOrders oracle faults db orders) o.ID) ∧
    (∀ (s : String) (a : ℚ), findOrder db o.ID = some o →
      AccrualService.checkOrderStatus oracle o.ID = .ok (s, a) → s ≠ o.Status →
      faults o.ID = ⟨none, none⟩ →
      findOrder (AccrualService.processOrders oracle faults db orders) o.ID =
        some { o with Status := s, Accrual := a }) := by
  have hown := processOrders_own_turn oracle faults o orders db hnodup ho
  refine ⟨?_, ?_, ?_⟩
  · rw [hown, findOrder_processOrder]
    simp
  · intro oracle2 faults2 h1 h2
    rw [hown, processOrders_own_turn oracle2 faults2 o orders db hnodup ho,
      reconciledRow_congr oracle oracle2 faults faults2 o _ h1 h2]
  · intro s a hfo hchk hs hf
    rw [hown, hfo]
    simp [reconciledRow, hchk, hs, hf]

/-- Witness of C17: two orders, the oracle is rate limited (429) for the first and answers
`PROCESSED`, 500 for the second. -/
theorem processOrders_isolated_witness :
    findOrder (AccrualService.processOrders
      (fun id => if id = "79927398713" then .response ⟨200, .ok ⟨id, "PROCESSED", 500⟩, ""⟩
        else .response ⟨429, .error "EOF", "1"⟩)
      ordersOK
      ⟨[⟨"18", 1, "NEW", 0⟩, ⟨"79927398713", 1, "PROCESSING", 0⟩], [⟨1, 0, 0⟩], [], 1⟩
      [⟨"18", 1, "NEW", 0⟩, ⟨"79927398713", 1, "PROCESSING", 0⟩]) "79927398713" =
    some ⟨"79927398713", 1, "PROCESSED", 500⟩ :=
  (processOrders_isolated
    (fun id => if id = "79927398713" then .response ⟨200, .ok ⟨id, "PROCESSED", 500⟩, ""⟩
      else .response ⟨429, .error "EOF", "1"⟩)
    ordersOK
    ⟨[⟨"18", 1, "NEW", 0⟩, ⟨"79927398713", 1, "PROCESSING", 0⟩], [⟨1, 0, 0⟩], [], 1⟩
    [⟨"18", 1, "NEW", 0⟩, ⟨"79927398713", 1, "PROCESSING", 0⟩]
    ⟨"79927398713", 1, "PROCESSING", 0⟩ (by decide) (by decide)).2.2
    "PROCESSED" 500 (by decide) (by decide) (by decide) rfl

/-- C12 (the code diverges). Order `"79927398713"` of user 1 is stored as `NEW`, the balance of
user 1 is `(0, 0)`, and the oracle answers `200 {status: PROCESSED, accrual: 500}`.  One tick of
`processNewOrders` leaves the database as it was, because `getOrdersToProcess` returns no
order (the same for an order stored as `PROCESSING`).  Handed the order directly, the loop
writes `PROCESSED`, 500 to the order and still leaves the balance at `(0, 0)`. -/
theorem processNewOrders_leaves_order :
    findOrder dbNewOrder "79927398713" = some ⟨"79927398713", 1, "NEW", 0⟩ ∧
    AccrualService.checkOrderStatus oracleProcessed500 "79927398713" = .ok ("PROCESSED", 500) ∧
    AccrualService.processNewOrders dbNewOrder oracleProcessed500 ordersOK = dbNewOrder ∧
    AccrualService.processNewOrders dbProcessing oracleProcessed500 ordersOK = dbProcessing ∧
    findOrder (AccrualService.processOrders oracleProcessed500 ordersOK dbNewOrder
      dbNewOrder.orders) "79927398713" = some ⟨"79927398713", 1, "PROCESSED", 500⟩ ∧
    balanceOf (AccrualService.processOrders oracleProcessed500 ordersOK dbNewOrder
      dbNewOrder.orders) 1 = some (0, 0) := by
  decide

/-- A tick of the reconciler as shipped never changes the database. -/
theorem processNewOrders_eq (db : DB) (oracle : String → OracleReply)
    (faults : String → OrderFaults) :
    AccrualService.processNewOrders db oracle faults = db := rfl

/-- The loop of the reconciler never writes to the Balance Ledger. -/
theorem processOrders_balances (oracle : String → OracleReply) (faults : String → OrderFaults)
    (xs : List Order) :
    ∀ db : DB, (AccrualService.processOrders oracle faults db xs).balances = db.balances := by
  induction xs with
  | nil => intro db; rfl
  | cons x xs ih =>
    intro db
    rw [processOrders_cons, ih]
    unfold AccrualService.processOrder
    cases AccrualService.checkOrderStatus oracle x.ID with
    | error e => rfl
    | ok r =>
      obtain ⟨s, a⟩ := r
      simp only []
      split
      · unfold AccrualService.updateOrderStatus OrderRepo.GetByID OrderRepo.Update
        rcases faults x.ID with ⟨fg, fu⟩
        cases fg <;> cases fu <;> cases findOrder db x.ID <;> rfl
      · rfl

/-! ## Checksum validator: substitution of one digit -/

theorem luhnWeight_le (n d : Nat) (hd : d ≤ 9) : luhnWeight n d ≤ 9 := by
  unfold luhnWeight luhnDouble
  split
  · split <;> omega
  · exact hd

theorem luhnWeight_injective (n d1 d2 : Nat) (h1 : d1 ≤ 9) (h2 : d2 ≤ 9) (hne : d1 ≠ d2) :
    luhnWeight n d1 ≠ luhnWeight n d2 := by
  unfold luhnWeight luhnDouble
  split
  · split <;> split <;> omega
  · exact hne

theorem luhnChecksum_cons_weight (d : Nat) (ds : List Nat) :
    luhnChecksum (d :: ds) = luhnChecksum ds + luhnWeight ds.length d :=
  luhnChecksum_cons d ds

/-- Replacing one digit moves the checksum from `base + p` to `base + q` with two different
weights `p`, `q` below 10. -/
theorem luhnChecksum_set (ds : List Nat) :
    ∀ (i : Nat) (x : Nat) (hi : i < ds.length), x ≤ 9 → (∀ y ∈ ds, y ≤ 9) →
      x ≠ ds.get ⟨i, hi⟩ →
      ∃ base p q, p ≤ 9 ∧ q ≤ 9 ∧ p ≠ q ∧ luhnChecksum ds = base + p ∧
        luhnChecksum (ds.set i x) = base + q := by
  induction ds with
  | nil => intro i x hi; simp at hi
  | cons d ds ih =>
    intro i x hi hx hds hne
    have hd : d ≤ 9 := hds d (List.mem_cons_self _ _)
    cases i with
    | zero =>
      refine ⟨luhnChecksum ds, luhnWeight ds.length d, luhnWeight ds.length x,
        luhnWeight_le _ _ hd, luhnWeight_le _ _ hx, ?_, luhnChecksum_cons_weight d ds, ?_⟩
      · exact luhnWeight_injective _ _ _ hd hx (fun h => hne (by simpa using h.symm))
      · rw [List.set_cons_zero, luhnChecksum_cons_weight]
    | succ i =>
      have hi2 : i < ds.length := by simpa using hi
      obtain ⟨base, p, q, hp, hq, hpq, h1, h2⟩ := ih i x hi2 hx
        (fun y hy => hds y (List.mem_cons_of_mem _ hy)) (by simpa using hne)
      refine ⟨base + luhnWeight ds.length d, p, q, hp, hq, hpq, ?_, ?_⟩
      · rw [luhnChecksum_cons_weight, h1]
        omega
      · rw [List.set_cons_succ, luhnChecksum_cons_weight, h2, List.length_set]
        omega

theorem digitValue_le {c : Char} (h : isDecimalDigit c) : digitValue c ≤ 9 := by
  rw [isDecimalDigit_iff] at h
  unfold digitValue
  omega

theorem digitValue_injective {c d : Char} (hc : isDecimalDigit c) (hd : isDecimalDigit d)
    (h : digitValue c = digitValue d) : c = d := by
  rw [isDecimalDigit_iff] at hc hd
  unfold digitValue at h
  have hn : c.toNat = d.toNat := by omega
  rw [← Char.ofNat_toNat c, ← Char.ofNat_toNat d, hn]

/-- C20. `ValidateLuhn` detects every substitution of a single digit: for every string `s` of
digits that `ValidateLuhn` accepts, every position `i` of `s` (so `s` is not empty) and every
digit `d` other than the one at `i`, the string with `d` at position `i` is rejected. -/
theorem ValidateLuhn_detects_substitution (s : String) (i : Nat) (d : Char)
    (hdig : ∀ c ∈ s.data, isDecimalDigit c) (hv : ValidateLuhn s = true)
    (hi : i < s.data.length) (hd : isDecimalDigit d) (hne : d ≠ s.data.get ⟨i, hi⟩) :
    ValidateLuhn ⟨s.data.set i d⟩ = false := by
  have hdig2 : ∀ c ∈ s.data.set i d, isDecimalDigit c := by
    intro c hc
    rcases List.mem_or_eq_of_mem_set hc with h | h
    · exact hdig c h
    · rw [h]
      exact hd
  have hsum : luhnChecksum (s.data.map digitValue) % 10 = 0 := by
    have h := hv
    unfold ValidateLuhn at h
    rw [parseDigits_of_digits _ hdig] at h
    simpa using h
  have hlen : i < (s.data.map digitValue).length := by simpa using hi
  have hval : digitValue d ≠ (s.data.map digitValue).get ⟨i, hlen⟩ := by
    intro h
    have hget : (s.data.map digitValue).get ⟨i, hlen⟩ = digitValue (s.data.get ⟨i, hi⟩) := by
      simp
    rw [hget] at h
    exact hne (digitValue_injective hd (hdig _ (List.get_mem _ _ _)) h)
  obtain ⟨base, p, q, hp, hq, hpq, h1, h2⟩ := luhnChecksum_set (s.data.map digitValue) i
    (digitValue d) hlen (digitValue_le hd)
    (by
      intro y hy
      obtain ⟨c, hc, rfl⟩ := List.mem_map.mp hy
      exact digitValue_le (hdig c hc))
    hval
  unfold ValidateLuhn
  rw [parseDigits_of_digits _ hdig2, List.map_set]
  rw [h1] at hsum
  have hq10 : (base + q) % 10 ≠ 0 := by omega
  simp [h2, hq10]

/-- Witness of C20: the last digit of `"79927398713"` replaced by `0`. -/
theorem ValidateLuhn_detects_substitution_witness :
    ValidateLuhn "79927398713" = true ∧
    ValidateLuhn ⟨"79927398713".data.set 10 '0'⟩ = false :=
  ⟨by decide,
    ValidateLuhn_detects_substitution "79927398713" 10 '0' (by decide) (by decide) (by decide)
      (by decide) (by decide)⟩

/-! ## Two debits, one after the other -/

/-- Serial execution of two debits of 80 against `current = 100`: the first succeeds and leaves
`(20, w + 80)`, the second, run on the database the first left, is refused with
"insufficient funds" and changes nothing. -/
theorem serial_debits_one_succeeds (db : DB) (u : Int) (w : ℚ)
    (h : balanceOf db u = some (100, w)) :
    (BalanceRepo.UpdateBalance db none u 80 true).1 = .ok () ∧
    balanceOf (BalanceRepo.UpdateBalance db none u 80 true).2 u = some (20, w + 80) ∧
    BalanceRepo.UpdateBalance (BalanceRepo.UpdateBalance db none u 80 true).2 none u 80 true =
      (.error "insufficient funds", (BalanceRepo.UpdateBalance db none u 80 true).2) := by
  obtain ⟨hok, hb⟩ := UpdateBalance_debit_done db u 80 h (by norm_num)
  have hb2 : balanceOf (BalanceRepo.UpdateBalance db none u 80 true).2 u = some (20, w + 80) := by
    rw [hb]
    norm_num
  exact ⟨hok, hb2, UpdateBalance_debit_refused _ u 80 hb2 (by norm_num)⟩

/-! ## Checksum validator: the check digit -/

/-- The rightmost digit enters the Luhn sum as it is; the rest of the sum does not depend on
it. -/
theorem luhnSumFromRight_cons (d : Nat) (rest : List Nat) :
    luhnSumFromRight (d :: rest) = d + luhnSumFromRight (0 :: rest) := by
  cases rest with
  | nil => simp [luhnSumFromRight]
  | cons d1 r =>
    simp only [luhnSumFromRight]
    omega

/-- Luhn sum of a digit string followed by one more digit. -/
theorem luhnSum_push (p : String) (d : Char) :
    luhnSum (p.push d) =
      digitValue d + luhnSumFromRight (0 :: p.data.reverse.map digitValue) := by
  unfold luhnSum
  rw [String.data_push, List.reverse_append, List.reverse_singleton, List.singleton_append,
    List.map_cons, luhnSumFromRight_cons]

/-- The ten digit characters, by value. -/
theorem digit_of_value :
    ∀ k : Nat, k ≤ 9 →
      isDecimalDigit (Char.ofNat (48 + k)) ∧ digitValue (Char.ofNat (48 + k)) = k := by
  decide

/-- C21. Every digit string has exactly one valid check digit: for every string `p` of
characters `'0'..'9'`, the empty one included, there is exactly one digit `d` such that
`ValidateLuhn` accepts `p` followed by `d`. -/
theorem ValidateLuhn_unique_check_digit (p : String)
    (hp : ∀ c ∈ p.data, isDecimalDigit c) :
    ∃! d : Char, isDecimalDigit d ∧ ValidateLuhn (p.push d) = true := by
  have hall : ∀ d : Char, isDecimalDigit d → ∀ c ∈ (p.push d).data, isDecimalDigit c := by
    intro d hd c hc
    rw [String.data_push, List.mem_append, List.mem_singleton] at hc
    rcases hc with h | h
    · exact hp c h
    · rw [h]
      exact hd
  have hval : ∀ d : Char, isDecimalDigit d →
      (ValidateLuhn (p.push d) = true ↔
        (digitValue d + luhnSumFromRight (0 :: p.data.reverse.map digitValue)) % 10 = 0) := by
    intro d hd
    rw [ValidateLuhn_of_digits _ (hall d hd), luhnSum_push, decide_eq_true_iff]
  obtain ⟨hk1, hk2⟩ := digit_of_value
    ((10 - luhnSumFromRight (0 :: p.data.reverse.map digitValue) % 10) % 10) (by omega)
  refine ⟨Char.ofNat
    (48 + (10 - luhnSumFromRight (0 :: p.data.reverse.map digitValue) % 10) % 10),
    ⟨hk1, ?_⟩, ?_⟩
  · rw [hval _ hk1, hk2]
    omega
  · rintro e ⟨he, hve⟩
    rw [hval e he] at hve
    have hle := digitValue_le he
    apply digitValue_injective he hk1
    rw [hk2]
    omega

/-- Witness of C21: the check digit of `"7992739871"`. -/
theorem ValidateLuhn_unique_check_digit_witness :
    (∀ c ∈ "7992739871".data, isDecimalDigit c) ∧
    ∃! d : Char, isDecimalDigit d ∧ ValidateLuhn ("7992739871".push d) = true :=
  ⟨by decide, ValidateLuhn_unique_check_digit "7992739871" (by decide)⟩

end Gophermart
